import Mathlib

/-
Verification of the sample-chopper playback engine.

This file gives a shallow embedding of the two core pieces of the repository:

* the ring buffer and the output stage of the render callback in
  src/src/workers/rubberband.worklet.js (class RingBuffer and step 5 of
  RubberBandProcessor.process), and
* the control-side state machine in src/src/lib/AudioEngine.ts
  (class AudioEngine).

Modelling conventions:

* JavaScript numbers are modelled as rationals (ℚ).  The code only performs
  field arithmetic and comparisons on them, never bit-level float tricks, so
  ℚ is an exact model of every expression that the claims mention, up to
  floating-point rounding which none of the claims is about.
* The Float32Array backing store of the ring buffer is modelled as a total
  function Nat → ℚ; an element store buffer[i] = v becomes a pointwise
  function update.  Samples are only ever copied, never combined, so the
  sample type plays no role beyond carrying values.
* JavaScript methods that mutate `this` become functions of type
  State → ... → State; methods that both return a value and mutate become
  functions returning a pair.
* The worklet's port messages (play/stop/...) and the Web Audio gain ramps
  are not part of the mutable state the claims quantify over; the engine
  model keeps exactly the fields of the AudioEngine class that the claims
  mention, plus a counter for invocations of the onStop callback and flags
  for the presence of the audio buffer, the WASM module and the envelope
  gain node (in the source these are nullable references whose only use in
  the claimed code paths is a null test).
-/

/-- The RingBuffer class: capacity and channel count fixed at construction,
interleaved storage `buffer[idx * channels + c]`, a write index, a read index
and a count of available frames. -/
structure RingBuffer where
  capacity : Nat
  channels : Nat
  buffer : Nat → ℚ
  writeIndex : Nat
  readIndex : Nat
  available : Nat

/-- Element store `buffer[i] = v` on the Float32Array model. -/
def storeAt (buf : Nat → ℚ) (i : Nat) (v : ℚ) : Nat → ℚ :=
  fun j => if j = i then v else buf j

/-- The inner loop of RingBuffer.write for one channel `c`: iterations
`i = 0 .. n-1` perform `buffer[((writeIndex + i) % capacity) * channels + c]
= channelData[i]`, in ascending order of `i`. -/
def writeChanLoop (buf : Nat → ℚ) (w cap ch c : Nat) (chanData : List ℚ) :
    Nat → Nat → ℚ
  | 0 => buf
  | n + 1 =>
    storeAt (writeChanLoop buf w cap ch c chanData n)
      (((w + n) % cap) * ch + c) (chanData.getD n 0)

/-- The outer loop of RingBuffer.write: channels `c = 0 .. steps-1` each run
`writeChanLoop` with their channel data, in ascending order of `c`. -/
def writeChansLoop (buf : Nat → ℚ) (w cap ch : Nat) (data : List (List ℚ))
    (numFrames : Nat) : Nat → Nat → ℚ
  | 0 => buf
  | c + 1 =>
    writeChanLoop (writeChansLoop buf w cap ch data numFrames c)
      w cap ch c (data.getD c []) numFrames

/-- RingBuffer.write(data): `numFrames = data[0].length`; if
`available + numFrames > capacity` return false and change nothing;
otherwise copy every channel, advance `writeIndex` modulo `capacity` and
increase `available`. -/
def RingBuffer.write (rb : RingBuffer) (data : List (List ℚ)) :
    Bool × RingBuffer :=
  let numFrames := (data.headD []).length
  if rb.capacity < rb.available + numFrames then (false, rb)
  else
    (true,
      { rb with
        buffer :=
          writeChansLoop rb.buffer rb.writeIndex rb.capacity rb.channels
            data numFrames rb.channels,
        writeIndex := (rb.writeIndex + numFrames) % rb.capacity,
        available := rb.available + numFrames })

/-- The body of the read loop for channel `c`: positions `i = 0 .. n-1` of
the caller's array receive `buffer[((readIndex + i) % capacity) * channels
+ c]`; entries past `numFrames` keep their old values, and (as for a typed
array) stores past the end of the caller's array are dropped. -/
def RingBuffer.readInto (rb : RingBuffer) (chanData : List ℚ)
    (c numFrames : Nat) : List ℚ :=
  (((List.range numFrames).map fun i =>
      rb.buffer (((rb.readIndex + i) % rb.capacity) * rb.channels + c)).take
    chanData.length) ++ chanData.drop numFrames

/-- The outer read loop: channels `c = 0 .. channels-1` of the output each
receive their data (output lists beyond the channel count are untouched). -/
def RingBuffer.readChans (rb : RingBuffer) (numFrames : Nat) :
    Nat → List (List ℚ) → List (List ℚ)
  | _, [] => []
  | c, chan :: rest =>
    (if c < rb.channels then rb.readInto chan c numFrames else chan) ::
      rb.readChans numFrames (c + 1) rest

/-- RingBuffer.read(output, numFrames): if `available < numFrames` return 0
and change nothing (neither the buffer nor the output); otherwise fill the
output, advance `readIndex` modulo `capacity`, decrease `available` and
return `numFrames`. -/
def RingBuffer.read (rb : RingBuffer) (output : List (List ℚ))
    (numFrames : Nat) : Nat × List (List ℚ) × RingBuffer :=
  if rb.available < numFrames then (0, output, rb)
  else
    (numFrames, rb.readChans numFrames 0 output,
      { rb with
        readIndex := (rb.readIndex + numFrames) % rb.capacity,
        available := rb.available - numFrames })

/-- RingBuffer.clear(): reset both indices and the available count, leaving
the storage contents alone. -/
def RingBuffer.clear (rb : RingBuffer) : RingBuffer :=
  { rb with writeIndex := 0, readIndex := 0, available := 0 }

/-- The RingBuffer constructor: zeroed storage, both indices and the
available count at 0. -/
def RingBuffer.new (capacity channels : Nat) : RingBuffer :=
  { capacity := capacity, channels := channels, buffer := fun _ => 0,
    writeIndex := 0, readIndex := 0, available := 0 }

/-- A 60-frame two-channel chunk (the concrete example of the spec). -/
def frames60 : List (List ℚ) :=
  [List.replicate 60 0, List.replicate 60 0]

/-- A 50-frame two-channel chunk (the concrete example of the spec). -/
def frames50 : List (List ℚ) :=
  [List.replicate 50 0, List.replicate 50 0]

/-- Well-formedness of a ring buffer state: positive geometry, the
available count within capacity, and the write index sitting `available`
frames past the read index modulo the capacity.  This holds for a fresh
buffer and is preserved by every in-bounds write and read. -/
def RingBuffer.wf (rb : RingBuffer) : Prop :=
  0 < rb.capacity ∧ 0 < rb.channels ∧ rb.available ≤ rb.capacity ∧
    rb.writeIndex = (rb.readIndex + rb.available) % rb.capacity

/-- The j-th pending frame of a ring buffer, counted from the read index. -/
def RingBuffer.frameAt (rb : RingBuffer) (j : Nat) : List ℚ :=
  (List.range rb.channels).map fun c =>
    rb.buffer (((rb.readIndex + j) % rb.capacity) * rb.channels + c)

/-- The queue of frames a ring buffer holds, oldest first. -/
def RingBuffer.toQueue (rb : RingBuffer) : List (List ℚ) :=
  (List.range rb.available).map rb.frameAt

/-- The frames a `write` call carries, converted from channel-major data to
a list of frames. -/
def framesOfData (ch : Nat) (data : List (List ℚ)) : List (List ℚ) :=
  (List.range (data.headD []).length).map fun i =>
    (List.range ch).map fun c => (data.getD c []).getD i 0

/-- The frames a `read` call delivered, converted from the channel-major
output arrays to a list of frames. -/
def framesOfChans (chans : List (List ℚ)) (n : Nat) : List (List ℚ) :=
  (List.range n).map fun i => chans.map fun chan => chan.getD i 0

/-- A client operation on the ring buffer. -/
inductive RBOp where
  | write (data : List (List ℚ))
  | read (count : Nat)

/-- The fresh output arrays a reader passes to `read` (the worklet allocates
zero-filled Float32Arrays of the requested frame count per channel). -/
def freshOut (ch n : Nat) : List (List ℚ) :=
  List.replicate ch (List.replicate n 0)

/-- The ring buffer resulting from running a sequence of operations. -/
def runFinal (rb : RingBuffer) : List RBOp → RingBuffer
  | [] => rb
  | RBOp.write d :: rest => runFinal (rb.write d).2 rest
  | RBOp.read n :: rest =>
    runFinal (rb.read (freshOut rb.channels n) n).2.2 rest

/-- All frames delivered by the reads of a sequence, in order (a failed
read delivers none). -/
def readFrames (rb : RingBuffer) : List RBOp → List (List ℚ)
  | [] => []
  | RBOp.write d :: rest => readFrames (rb.write d).2 rest
  | RBOp.read n :: rest =>
    framesOfChans (rb.read (freshOut rb.channels n) n).2.1
        (rb.read (freshOut rb.channels n) n).1 ++
      readFrames (rb.read (freshOut rb.channels n) n).2.2 rest

/-- All frames carried by the writes of a sequence, in order. -/
def writtenFrames (ch : Nat) : List RBOp → List (List ℚ)
  | [] => []
  | RBOp.write d :: rest => framesOfData ch d ++ writtenFrames ch rest
  | RBOp.read _ :: rest => writtenFrames ch rest

/-- Every intermediate buffer state of a run, including the first and the
last. -/
def statesOf (rb : RingBuffer) : List RBOp → List RingBuffer
  | [] => [rb]
  | RBOp.write d :: rest => rb :: statesOf (rb.write d).2 rest
  | RBOp.read n :: rest =>
    rb :: statesOf (rb.read (freshOut rb.channels n) n).2.2 rest

/-- A sequence respects the buffer bounds: every write carries one list per
channel, all of the length of the first, and fits into the free capacity;
every read requests at most the available count. -/
def legalb (rb : RingBuffer) : List RBOp → Bool
  | [] => true
  | RBOp.write d :: rest =>
    (decide (d.length = rb.channels) &&
        d.all (fun chan => chan.length == (d.headD []).length) &&
        decide (rb.available + (d.headD []).length ≤ rb.capacity)) &&
      legalb (rb.write d).2 rest
  | RBOp.read n :: rest =>
    decide (n ≤ rb.available) &&
      legalb (rb.read (freshOut rb.channels n) n).2.2 rest

/-- A small concrete run: write two frames, read one, write one, read two
(capacity 3, two channels). -/
def opsEx : List RBOp :=
  [RBOp.write [[1, 2], [10, 20]], RBOp.read 1,
    RBOp.write [[3], [30]], RBOp.read 2]

/-- The underrun fill: positions `read .. framesNeeded-1` of a channel are
zeroed; positions before `read` keep what the read put there. -/
def fillSilence (chan : List ℚ) (read framesNeeded : Nat) : List ℚ :=
  chan.take read ++ List.replicate (framesNeeded - read) 0

/-- Step 5 of RubberBandProcessor.process: `read = outputRing.read(output,
framesNeeded)`, then `if (read < framesNeeded)` fill the remainder of every
channel with silence.  Returns the destination contents and the ring
afterwards; the callback itself always returns normally. -/
def processFillOutput (ring : RingBuffer) (output : List (List ℚ))
    (framesNeeded : Nat) : List (List ℚ) × RingBuffer :=
  let r := ring.read output framesNeeded
  if r.1 < framesNeeded then
    (r.2.1.map fun chan => fillSilence chan r.1 framesNeeded, r.2.2)
  else
    (r.2.1, r.2.2)

/-- The PlaybackMode string tag: global transport or pad playback. -/
inductive PlaybackMode where
  | global
  | pad
  deriving DecidableEq

/-- PadParams: the per-trigger playback parameters. -/
structure PadParams where
  speed : ℚ
  pitch : ℚ
  reverse : Bool
  attack : ℚ
  release : ℚ
  volume : ℚ
  deriving DecidableEq

/-- PlaybackState: the engine's single mutable state record. -/
structure PlaybackState where
  mode : PlaybackMode
  cuePoint : ℚ
  startTime : ℚ
  duration : ℚ
  params : PadParams
  isPlaying : Bool
  currentPadId : Option String
  deriving DecidableEq

/-- The AudioEngine class fields used by the claimed code paths. -/
structure AudioEngine where
  hasBuffer : Bool
  bufferDuration : ℚ
  state : PlaybackState
  globalOffset : ℚ
  globalPitchOffset : ℚ
  globalSpeed : ℚ
  lastUpdateTime : ℚ
  accumulatedPosition : ℚ
  wasmLoaded : Bool
  hasEnvelopeGain : Bool
  onStopCount : Nat
  deriving DecidableEq

/-- The unity parameter set the transport resets to: speed 1, pitch 0,
forward, attack 0, release 0.1, volume 1. -/
def unityParams : PadParams :=
  { speed := 1, pitch := 0, reverse := false, attack := 0,
    release := 1 / 10, volume := 1 }

/-- getDuration(): `this.audioBuffer?.duration || 0`. -/
def AudioEngine.getDuration (e : AudioEngine) : ℚ :=
  if e.hasBuffer then e.bufferDuration else 0

/-- The isPadPlaying getter: `state.isPlaying && state.mode === 'pad'`. -/
def AudioEngine.isPadPlaying (e : AudioEngine) : Bool :=
  e.state.isPlaying && decide (e.state.mode = PlaybackMode.pad)

/-- The isGlobalPlaying getter. -/
def AudioEngine.isGlobalPlaying (e : AudioEngine) : Bool :=
  e.state.isPlaying && decide (e.state.mode = PlaybackMode.global)

/-- _stopPlayback(preservePadId): posts stop to the worklet (no engine
field), clears isPlaying, clears currentPadId unless preserved, and resets
lastUpdateTime; accumulatedPosition is deliberately left alone. -/
def AudioEngine.stopPlayback (e : AudioEngine) (preservePadId : Bool) :
    AudioEngine :=
  { e with
    state := { e.state with
      isPlaying := false,
      currentPadId := if preservePadId then e.state.currentPadId else none },
    lastUpdateTime := 0 }

/-- _startPlayback(cuePoint, duration, params): returns early without
starting if the buffer or the WASM module is missing; otherwise creates the
envelope gain node if needed, schedules the attack ramp and the worklet
play message (no engine field), and records startTime = now, the duration
and isPlaying = true.  cuePoint and params only feed the worklet message. -/
def AudioEngine.startPlayback (e : AudioEngine) (cuePoint duration : ℚ)
    (params : PadParams) (now : ℚ) : AudioEngine :=
  if ¬ e.hasBuffer then e
  else if ¬ e.wasmLoaded then e
  else
    { e with
      hasEnvelopeGain := true,
      state := { e.state with
        startTime := now, duration := duration, isPlaying := true } }

/-- updatePosition(timeDelta): advance accumulatedPosition by
timeDelta * (params.speed * globalSpeed), backwards when reversed. -/
def AudioEngine.updatePosition (e : AudioEngine) (timeDelta : ℚ) :
    AudioEngine :=
  let effectiveSpeed := e.state.params.speed * e.globalSpeed
  if e.state.params.reverse then
    { e with accumulatedPosition := e.accumulatedPosition - timeDelta * effectiveSpeed }
  else
    { e with accumulatedPosition := e.accumulatedPosition + timeDelta * effectiveSpeed }

/-- checkPlaybackCompletion(now): if
(now - startTime) * (speed * globalSpeed) >= duration - 0.01 the engine
stops (isPlaying false, pad id cleared, lastUpdateTime reset), snaps
accumulatedPosition to 0 (reverse), min(total, cuePoint + duration) (pad,
forward) or min(total, globalOffset + duration) (global, forward, which is
also committed to globalOffset), and fires onStop. -/
def AudioEngine.checkPlaybackCompletion (e : AudioEngine) (now : ℚ) :
    AudioEngine :=
  let effectiveSpeed := e.state.params.speed * e.globalSpeed
  let elapsed := now - e.state.startTime
  let playbackElapsed := elapsed * effectiveSpeed
  if playbackElapsed ≥ e.state.duration - 1 / 100 then
    let e1 := { e with state := { e.state with isPlaying := false } }
    let e2 := e1.stopPlayback false
    let e3 :=
      if e2.state.params.reverse then
        { e2 with accumulatedPosition := 0 }
      else if e2.state.mode = PlaybackMode.pad then
        { e2 with accumulatedPosition := min e2.getDuration (e2.state.cuePoint + e2.state.duration) }
      else
        let p := min e2.getDuration (e2.globalOffset + e2.state.duration)
        { e2 with accumulatedPosition := p, globalOffset := p }
    { e3 with onStopCount := e3.onStopCount + 1 }
  else e

/-- getCurrentTime(): pure when not playing (accumulatedPosition in pad
mode, clamped globalOffset otherwise); while playing it advances the
position by (now - last) * speed * globalSpeed where last is lastUpdateTime
or, on the first call after a start, startTime, sets lastUpdateTime = now,
runs the completion check, and returns the clamped position. -/
def AudioEngine.getCurrentTime (e : AudioEngine) (now : ℚ) :
    ℚ × AudioEngine :=
  if ¬ e.state.isPlaying then
    if e.state.mode = PlaybackMode.pad then (e.accumulatedPosition, e)
    else (max 0 (min e.getDuration e.globalOffset), e)
  else
    let last :=
      if e.lastUpdateTime = 0 then e.state.startTime else e.lastUpdateTime
    let timeDelta := now - last
    let e1 := e.updatePosition timeDelta
    let e2 := { e1 with lastUpdateTime := now }
    let e3 := e2.checkPlaybackCompletion now
    (max 0 (min e3.getDuration e3.accumulatedPosition), e3)

/-- play(): no-op when already playing or without a buffer; otherwise stop,
force global mode with unity parameters, cue at the global offset, compute
duration = total - globalOffset (resetting the offset and cue to 0 when
that is <= 0 — the stale non-positive duration is still the one passed
on), reset position tracking to the offset, and start. -/
def AudioEngine.play (e : AudioEngine) (now : ℚ) : AudioEngine :=
  if e.state.isPlaying then e
  else if ¬ e.hasBuffer then e
  else
    let e1 := e.stopPlayback false
    let e2 := { e1 with state := { e1.state with
        mode := PlaybackMode.global, params := unityParams,
        cuePoint := e1.globalOffset } }
    let duration := e2.getDuration - e2.globalOffset
    let e3 :=
      if duration ≤ 0 then
        { e2 with globalOffset := 0,
                  state := { e2.state with cuePoint := 0 } }
      else e2
    let e4 := { e3 with lastUpdateTime := 0,
                        accumulatedPosition := e3.globalOffset }
    e4.startPlayback e4.globalOffset duration e4.state.params now

/-- pause(): capture the current estimated position (via getCurrentTime
when playing, else the stored offset), stop, commit the position as the
new globalOffset, and force global mode with unity parameters. -/
def AudioEngine.pause (e : AudioEngine) (now : ℚ) : AudioEngine :=
  let pr :=
    if e.state.isPlaying then e.getCurrentTime now else (e.globalOffset, e)
  let e1 := pr.2.stopPlayback false
  let e2 := { e1 with globalOffset := pr.1 }
  { e2 with state := { e2.state with
      mode := PlaybackMode.global, params := unityParams,
      isPlaying := false, currentPadId := none } }

/-- seek(time): pause when playing, clamp the target into [0, duration]
and store it as globalOffset, force global mode and unity parameters,
reset position tracking, and resume via play() when it was playing. -/
def AudioEngine.seek (e : AudioEngine) (time now : ℚ) : AudioEngine :=
  let wasPlaying := e.state.isPlaying
  let e1 := if wasPlaying then e.pause now else e
  let e2 := { e1 with globalOffset := max 0 (min time e1.getDuration) }
  let e3 := { e2 with state := { e2.state with
      mode := PlaybackMode.global, params := unityParams } }
  let e4 := { e3 with lastUpdateTime := 0,
                      accumulatedPosition := e3.globalOffset }
  if wasPlaying then e4.play now else e4

/-- playPad(padId, cuePoint, params): no-op without a buffer; stops a
playing pad; overwrites mode, pad id, cue and params with the trigger's
values; computes duration = cuePoint (reverse) or total - cuePoint
(forward); when that is <= 0 the trigger is rejected with isPlaying forced
false; otherwise position tracking is reset to the cue and the segment is
started. -/
def AudioEngine.playPad (e : AudioEngine) (padId : String) (cuePoint : ℚ)
    (params : PadParams) (now : ℚ) : AudioEngine :=
  if ¬ e.hasBuffer then e
  else
    let e1 := if e.isPadPlaying then e.stopPlayback false else e
    let e2 := { e1 with state := { e1.state with
        mode := PlaybackMode.pad, currentPadId := some padId,
        cuePoint := cuePoint, params := params } }
    let duration :=
      if params.reverse then cuePoint else e2.getDuration - cuePoint
    if duration ≤ 0 then
      { e2 with state := { e2.state with isPlaying := false } }
    else
      let e3 := { e2 with lastUpdateTime := 0,
                          accumulatedPosition := cuePoint }
      e3.startPlayback cuePoint duration params now

/-- The delayed remainder of stopPad() scheduled behind the 10 ms release
ramp: a setTimeout callback that, only when the engine is still in pad mode
on the same pad, stops playback, returns the transport to the stopped
pad's cue point and reverts to global mode. -/
inductive PendingStop where
  | none
  | delayed (padId : Option String) (cuePoint : ℚ)
  deriving DecidableEq

/-- stopPad(): when a pad is playing and the envelope gain node exists, it
only schedules the release ramp and the delayed stop (no engine field
changes yet); without the node it stops immediately, committing the pad's
cue point as the new globalOffset; when no pad is playing it falls back to
pause(). -/
def AudioEngine.stopPad (e : AudioEngine) (now : ℚ) :
    AudioEngine × PendingStop :=
  if e.isPadPlaying then
    if e.hasEnvelopeGain then
      (e, PendingStop.delayed e.state.currentPadId e.state.cuePoint)
    else
      let cue := e.state.cuePoint
      let e1 := e.stopPlayback false
      ({ e1 with globalOffset := cue,
                 state := { e1.state with
                   mode := PlaybackMode.global, isPlaying := false } },
        PendingStop.none)
  else (e.pause now, PendingStop.none)

/-- The body of the setTimeout callback in stopPad(): only when still in
pad mode with the same pad id, stop, set globalOffset to the remembered
cue point, and revert to global mode. -/
def AudioEngine.stopPadTimeout (e : AudioEngine) (padId : Option String)
    (cue : ℚ) : AudioEngine :=
  if e.state.mode = PlaybackMode.pad ∧ e.state.currentPadId = padId then
    let e1 := e.stopPlayback false
    { e1 with globalOffset := cue,
              state := { e1.state with
                mode := PlaybackMode.global, isPlaying := false } }
  else e

/-- The engine as built by the constructor: no buffer, no WASM, no envelope
node, global mode with unity-like defaults. -/
def AudioEngine.init : AudioEngine :=
  { hasBuffer := false, bufferDuration := 0,
    state := { mode := PlaybackMode.global, cuePoint := 0, startTime := 0,
               duration := 0,
               params := { speed := 1, pitch := 0, reverse := false,
                           attack := 0, release := 1 / 10, volume := 1 },
               isPlaying := false, currentPadId := none },
    globalOffset := 0, globalPitchOffset := 0, globalSpeed := 1,
    lastUpdateTime := 0, accumulatedPosition := 0,
    wasmLoaded := false, hasEnvelopeGain := false, onStopCount := 0 }

/-- setAudioBuffer(buffer) on the successful path: stores the decoded
buffer and completes the worklet/WASM initialisation. -/
def AudioEngine.setAudioBuffer (e : AudioEngine) (duration : ℚ) :
    AudioEngine :=
  { e with hasBuffer := true, bufferDuration := duration,
           wasmLoaded := true }

/-- Forward unity-like pad parameters used in concrete examples. -/
def fwdParams : PadParams :=
  { speed := 1, pitch := 0, reverse := false, attack := 0, release := 1 / 10,
    volume := 1 }

/-- Reverse pad parameters used in concrete examples. -/
def revParams : PadParams :=
  { speed := 1, pitch := 0, reverse := true, attack := 0, release := 1 / 10,
    volume := 1 }

/-- A ready engine on a 10 s source. -/
def engineReady : AudioEngine := AudioEngine.init.setAudioBuffer 10

/-- A ready engine playing pad A (cue 2 s, forward) with the global offset
parked at 5 s. -/
def enginePadA : AudioEngine :=
  ((AudioEngine.init.setAudioBuffer 10).seek 5 0).playPad "A" 2 fwdParams 0

/-- A ready engine with prior global offset 4 s playing the global
transport from t = 0 (the spec's completion example). -/
def enginePlaying4 : AudioEngine :=
  ((AudioEngine.init.setAudioBuffer 10).seek 4 0).play 0

/-! ## Theorems -/

/-- C1: a write of n frames with available + n > capacity returns false and
leaves writeIndex, readIndex, available and the storage untouched (no
partial write); a read requesting more than available returns 0 and leaves
the buffer and the output untouched (no partial read); and on a buffer of
capacity 100 with 2 channels, writing 60 frames succeeds leaving
available = 60, after which a 50-frame write fails and available is still
60. -/
theorem C1_no_partial_write_or_read :
    (∀ (rb : RingBuffer) (data : List (List ℚ)),
      rb.capacity < rb.available + (data.headD []).length →
      rb.write data = (false, rb)) ∧
    (∀ (rb : RingBuffer) (out : List (List ℚ)) (n : Nat),
      rb.available < n → rb.read out n = (0, out, rb)) ∧
    (((RingBuffer.new 100 2).write frames60).1 = true ∧
      ((RingBuffer.new 100 2).write frames60).2.available = 60 ∧
      ((((RingBuffer.new 100 2).write frames60).2.write frames50).1 = false ∧
        (((RingBuffer.new 100 2).write frames60).2.write frames50).2 =
          ((RingBuffer.new 100 2).write frames60).2)) := by
  refine ⟨?_, ?_, ?_, ?_, ?_, ?_⟩
  · intro rb data h
    have h2 : rb.capacity < rb.available + (data.head?.getD []).length := by
      simpa using h
    simp [RingBuffer.write, h2]
  · intro rb out n h
    simp [RingBuffer.read, h]
  · decide
  · decide
  · decide
  · rfl

theorem mod_shift_inj {cap w i j : Nat} (hi : i < cap) (hj : j < cap)
    (h : (w + i) % cap = (w + j) % cap) : i = j := by
  have h2 : i ≡ j [MOD cap] := Nat.ModEq.add_left_cancel' w h
  have h3 : i % cap = j % cap := h2
  rwa [Nat.mod_eq_of_lt hi, Nat.mod_eq_of_lt hj] at h3

theorem slot_decomp {idx1 idx2 c1 c2 ch : Nat} (h1 : c1 < ch) (h2 : c2 < ch)
    (h : idx1 * ch + c1 = idx2 * ch + c2) : idx1 = idx2 ∧ c1 = c2 := by
  have hc : c1 = c2 := by
    have hmod := congrArg (· % ch) h
    simp only [Nat.mul_comm _ ch] at hmod
    simpa [Nat.mul_add_mod, Nat.mod_eq_of_lt h1, Nat.mod_eq_of_lt h2]
      using hmod
  subst hc
  have hch : 0 < ch := Nat.pos_of_ne_zero (by omega)
  have hmul : idx1 * ch = idx2 * ch := by omega
  exact ⟨Nat.eq_of_mul_eq_mul_right hch hmul, rfl⟩

theorem writeChanLoop_miss (buf : Nat → ℚ) (w cap ch c : Nat) (d : List ℚ)
    {n : Nat} (p : Nat) (hp : ∀ i, i < n → p ≠ ((w + i) % cap) * ch + c) :
    writeChanLoop buf w cap ch c d n p = buf p := by
  induction n with
  | zero => rfl
  | succ m ih =>
    simp only [writeChanLoop, storeAt]
    rw [if_neg (hp m (by omega))]
    exact ih fun i hi => hp i (by omega)

theorem writeChanLoop_hit (buf : Nat → ℚ) (w cap ch c : Nat) (d : List ℚ)
    {n i : Nat} (hch : 0 < ch) (hn : n ≤ cap) (hi : i < n) :
    writeChanLoop buf w cap ch c d n (((w + i) % cap) * ch + c) =
      d.getD i 0 := by
  induction n with
  | zero => omega
  | succ m ih =>
    simp only [writeChanLoop, storeAt]
    by_cases him : i = m
    · subst him
      rw [if_pos rfl]
    · have hne : ((w + i) % cap) * ch + c ≠ ((w + m) % cap) * ch + c := by
        intro he
        have hidx : (w + i) % cap = (w + m) % cap := by
          have h1 : ((w + i) % cap) * ch = ((w + m) % cap) * ch := by omega
          exact Nat.eq_of_mul_eq_mul_right hch h1
        exact him (mod_shift_inj (by omega) (by omega) hidx)
      rw [if_neg hne]
      exact ih (by omega) (by omega)

theorem writeChanLoop_other_channel (buf : Nat → ℚ) (w cap ch c : Nat)
    (d : List ℚ) {n : Nat} (idx c2 : Nat) (hc : c < ch) (hc2 : c2 < ch)
    (hne : c2 ≠ c) :
    writeChanLoop buf w cap ch c d n (idx * ch + c2) = buf (idx * ch + c2) := by
  refine writeChanLoop_miss buf w cap ch c d _ fun i hi he => ?_
  exact hne (slot_decomp hc2 hc he).2

theorem writeChansLoop_hit (buf : Nat → ℚ) (w cap ch : Nat)
    (data : List (List ℚ)) (nF : Nat) {steps i c : Nat} (hcap : 0 < cap)
    (hsteps : steps ≤ ch) (hn : nF ≤ cap) (hi : i < nF) (hc : c < steps) :
    writeChansLoop buf w cap ch data nF steps (((w + i) % cap) * ch + c) =
      (data.getD c []).getD i 0 := by
  induction steps with
  | zero => omega
  | succ s ih =>
    simp only [writeChansLoop]
    by_cases hcs : c = s
    · subst hcs
      exact writeChanLoop_hit _ w cap ch c _ (by omega) hn hi
    · rw [writeChanLoop_other_channel _ w cap ch s _ _ c (by omega) (by omega)
        hcs]
      exact ih (by omega) (by omega)

theorem writeChansLoop_miss (buf : Nat → ℚ) (w cap ch : Nat)
    (data : List (List ℚ)) (nF : Nat) {steps idx c : Nat} (hsteps : steps ≤ ch)
    (hc : c < ch) (hmiss : ∀ i, i < nF → idx ≠ (w + i) % cap) :
    writeChansLoop buf w cap ch data nF steps (idx * ch + c) =
      buf (idx * ch + c) := by
  induction steps with
  | zero => rfl
  | succ s ih =>
    simp only [writeChansLoop]
    rw [writeChanLoop_miss]
    · exact ih (by omega)
    · intro i hi he
      obtain ⟨hidx, -⟩ := slot_decomp hc (by omega) he
      exact hmiss i hi hidx

/-- An in-bounds write succeeds and appends its frames to the queue. -/
theorem write_toQueue {rb : RingBuffer} {data : List (List ℚ)}
    (hwf : rb.wf)
    (hfit : rb.available + (data.headD []).length ≤ rb.capacity) :
    (rb.write data).1 = true ∧ (rb.write data).2.wf ∧
    (rb.write data).2.toQueue = rb.toQueue ++ framesOfData rb.channels data ∧
    (rb.write data).2.capacity = rb.capacity ∧
    (rb.write data).2.channels = rb.channels ∧
    (rb.write data).2.available =
      rb.available + (data.headD []).length := by
  obtain ⟨hcap, hch, havail, hw⟩ := hwf
  have hcond : ¬ rb.capacity < rb.available + (data.headD []).length := by
    omega
  have hres : rb.write data =
      (true,
        { rb with
          buffer :=
            writeChansLoop rb.buffer rb.writeIndex rb.capacity rb.channels
              data (data.headD []).length rb.channels,
          writeIndex :=
            (rb.writeIndex + (data.headD []).length) % rb.capacity,
          available := rb.available + (data.headD []).length }) := by
    simp only [RingBuffer.write, if_neg hcond]
  rw [hres]
  refine ⟨rfl, ⟨hcap, hch, by simpa using hfit, ?_⟩, ?_, rfl, rfl, rfl⟩
  · show (rb.writeIndex + (data.headD []).length) % rb.capacity =
      (rb.readIndex + (rb.available + (data.headD []).length)) %
        rb.capacity
    rw [hw, Nat.mod_add_mod, Nat.add_assoc]
  · simp only [RingBuffer.toQueue, RingBuffer.frameAt, framesOfData]
    rw [List.range_add, List.map_append, List.map_map]
    congr 1
    · refine List.map_congr_left fun j hj => ?_
      have hja : j < rb.available := by simpa using hj
      refine List.map_congr_left fun c hcm => ?_
      have hcch : c < rb.channels := by simpa using hcm
      refine writeChansLoop_miss _ _ _ _ _ _ le_rfl hcch fun i hi he => ?_
      have he2 : (rb.readIndex + j) % rb.capacity =
          (rb.readIndex + (rb.available + i)) % rb.capacity := by
        rw [he, hw, Nat.mod_add_mod, Nat.add_assoc]
      have hja2 : j = rb.available + i :=
        mod_shift_inj (by omega) (by omega) he2
      omega
    · refine List.map_congr_left fun i him => ?_
      have hin : i < (data.headD []).length := by simpa using him
      simp only [Function.comp]
      refine List.map_congr_left fun c hcm => ?_
      have hcch : c < rb.channels := by simpa using hcm
      have hslot : (rb.readIndex + (rb.available + i)) % rb.capacity =
          (rb.writeIndex + i) % rb.capacity := by
        rw [hw, Nat.mod_add_mod, Nat.add_assoc]
      rw [hslot]
      exact writeChansLoop_hit _ _ _ _ _ _ hcap le_rfl (by omega) hin hcch

theorem readChans_length (rb : RingBuffer) (n : Nat) :
    ∀ (c0 : Nat) (out : List (List ℚ)),
      (rb.readChans n c0 out).length = out.length := by
  intro c0 out
  induction out generalizing c0 with
  | nil => rfl
  | cons chan rest ih => simp [RingBuffer.readChans, ih]

theorem readChans_getD (rb : RingBuffer) {n i : Nat} (hi : i < n) :
    ∀ (c0 k : Nat) (out : List (List ℚ)), k < out.length →
      c0 + out.length ≤ rb.channels → (∀ chan ∈ out, n ≤ chan.length) →
      ((rb.readChans n c0 out).getD k []).getD i 0 =
        rb.buffer
          (((rb.readIndex + i) % rb.capacity) * rb.channels + (c0 + k)) := by
  intro c0 k out
  induction out generalizing c0 k with
  | nil => intro hk; simp at hk
  | cons chan rest ih =>
    intro hk hle hlens
    simp only [RingBuffer.readChans]
    match k with
    | 0 =>
      have hc0 : c0 < rb.channels := by
        simp only [List.length_cons] at hle
        omega
      have hchan : n ≤ chan.length := hlens chan (by simp)
      simp only [List.getD_cons_zero, if_pos hc0, RingBuffer.readInto]
      have hpre : ((List.range n).map fun j =>
          rb.buffer (((rb.readIndex + j) % rb.capacity) * rb.channels +
            c0)).take chan.length =
          (List.range n).map fun j =>
            rb.buffer (((rb.readIndex + j) % rb.capacity) * rb.channels +
              c0) := by
        refine List.take_of_length_le ?_
        simpa using hchan
      rw [hpre]
      rw [List.getD_append _ _ _ _ (by simpa using hi)]
      rw [List.getD_eq_getElem _ _ (by simpa using hi)]
      simp
    | k + 1 =>
      have hlens2 : ∀ c ∈ rest, n ≤ c.length := fun c hc =>
        hlens c (by simp [hc])
      have := ih (c0 + 1) k (by simpa using Nat.lt_of_succ_lt_succ hk)
        (by simp only [List.length_cons] at hle; omega) hlens2
      simp only [List.getD_cons_succ]
      rw [this]
      congr 1
      omega

/-- An in-bounds read delivers the oldest `n` frames of the queue and drops
them from it. -/
theorem read_toQueue {rb : RingBuffer} {out : List (List ℚ)} {n : Nat}
    (hwf : rb.wf) (hn : n ≤ rb.available) (hlen : out.length = rb.channels)
    (hchan : ∀ chan ∈ out, n ≤ chan.length) :
    (rb.read out n).1 = n ∧ (rb.read out n).2.2.wf ∧
    framesOfChans (rb.read out n).2.1 n = rb.toQueue.take n ∧
    (rb.read out n).2.2.toQueue = rb.toQueue.drop n ∧
    (rb.read out n).2.2.capacity = rb.capacity ∧
    (rb.read out n).2.2.channels = rb.channels ∧
    (rb.read out n).2.2.available = rb.available - n := by
  obtain ⟨hcap, hch, havail, hw⟩ := hwf
  have hcond : ¬ rb.available < n := by omega
  have hres : rb.read out n =
      (n, rb.readChans n 0 out,
        { rb with
          readIndex := (rb.readIndex + n) % rb.capacity,
          available := rb.available - n }) := by
    simp only [RingBuffer.read, if_neg hcond]
  rw [hres]
  refine ⟨rfl, ⟨hcap, hch, ?_, ?_⟩, ?_, ?_, rfl, rfl, rfl⟩
  · show rb.available - n ≤ rb.capacity
    omega
  · show rb.writeIndex =
      ((rb.readIndex + n) % rb.capacity + (rb.available - n)) % rb.capacity
    rw [hw, Nat.mod_add_mod]
    congr 1
    omega
  · refine List.ext_getElem ?_ fun i h1 h2 => ?_
    · simp only [framesOfChans, RingBuffer.toQueue, List.length_map,
        List.length_range, List.length_take]
      omega
    · have hin : i < n := by simpa [framesOfChans] using h1
      simp only [framesOfChans, List.getElem_map, List.getElem_range]
      rw [List.getElem_take]
      simp only [RingBuffer.toQueue, List.getElem_map, List.getElem_range,
        RingBuffer.frameAt]
      refine List.ext_getElem ?_ fun k hk1 hk2 => ?_
      · simp [readChans_length rb n 0 out, hlen]
      · have hkch : k < rb.channels := by simpa using hk2
        have hkout : k < out.length := by
          rw [hlen]; exact hkch
        simp only [List.getElem_map, List.getElem_range]
        rw [← List.getD_eq_getElem _ ([] : List ℚ)
          (by simpa [readChans_length rb n 0 out] using hkout)]
        have := readChans_getD rb hin 0 k out hkout (by omega) hchan
        simpa using this
  · refine List.ext_getElem ?_ fun j h1 h2 => ?_
    · simp only [RingBuffer.toQueue, List.length_map, List.length_range,
        List.length_drop]
    · have hja : j < rb.available - n := by
        simpa [RingBuffer.toQueue] using h1
      have hidx : ((rb.readIndex + n) % rb.capacity + j) % rb.capacity =
          (rb.readIndex + (n + j)) % rb.capacity := by
        rw [Nat.mod_add_mod]
        congr 1
        omega
      simp only [RingBuffer.toQueue, List.getElem_map, List.getElem_range,
        RingBuffer.frameAt]
      rw [List.getElem_drop]
      simp only [List.getElem_map, List.getElem_range]
      refine List.map_congr_left fun c hcm => ?_
      rw [hidx]

theorem RingBuffer.wf_new {cap ch : Nat} (hc : 0 < cap) (hh : 0 < ch) :
    (RingBuffer.new cap ch).wf := by
  refine ⟨hc, hh, by simp [RingBuffer.new], ?_⟩
  simp [RingBuffer.new]

theorem toQueue_new (cap ch : Nat) :
    (RingBuffer.new cap ch).toQueue = [] := by
  simp [RingBuffer.toQueue, RingBuffer.new]

/-- Main invariant of a legal run: the frames read so far, followed by what
is still queued, are exactly the initial queue followed by the frames
written so far; well-formedness is preserved and `available` stays within
`capacity` throughout. -/
theorem runFrames_invariant (ops : List RBOp) :
    ∀ rb : RingBuffer, rb.wf → legalb rb ops = true →
      (runFinal rb ops).wf ∧
      readFrames rb ops ++ (runFinal rb ops).toQueue =
        rb.toQueue ++ writtenFrames rb.channels ops ∧
      ∀ s ∈ statesOf rb ops, s.available ≤ s.capacity := by
  induction ops with
  | nil =>
    intro rb hwf _
    refine ⟨hwf, by simp [runFinal, readFrames, writtenFrames], ?_⟩
    intro s hs
    simp only [statesOf, List.mem_singleton] at hs
    subst hs
    exact hwf.2.2.1
  | cons op rest ih =>
    intro rb hwf hleg
    cases op with
    | write d =>
      simp only [legalb, Bool.and_eq_true, decide_eq_true_eq, List.all_eq_true,
        beq_iff_eq] at hleg
      obtain ⟨⟨⟨-, -⟩, hfit⟩, hrest⟩ := hleg
      obtain ⟨-, hw2, hw3, -, hw5, -⟩ := write_toQueue hwf hfit
      obtain ⟨hf1, hf2, hf3⟩ := ih (rb.write d).2 hw2 hrest
      rw [hw5] at hf2
      refine ⟨hf1, ?_, ?_⟩
      · simp only [runFinal, readFrames, writtenFrames]
        rw [hf2, hw3, List.append_assoc]
      · intro s hs
        simp only [statesOf, List.mem_cons] at hs
        rcases hs with hs | hs
        · subst hs; exact hwf.2.2.1
        · exact hf3 s hs
    | read n =>
      simp only [legalb, Bool.and_eq_true, decide_eq_true_eq] at hleg
      obtain ⟨hn, hrest⟩ := hleg
      have hlen : (freshOut rb.channels n).length = rb.channels := by
        simp [freshOut]
      have hchans : ∀ chan ∈ freshOut rb.channels n, n ≤ chan.length := by
        intro chan hc
        have := List.eq_of_mem_replicate hc
        simp [this]
      obtain ⟨hr1, hr2, hr3, hr4, -, hr6, -⟩ :=
        read_toQueue hwf hn hlen hchans
      obtain ⟨hf1, hf2, hf3⟩ :=
        ih (rb.read (freshOut rb.channels n) n).2.2 hr2 hrest
      rw [hr6] at hf2
      refine ⟨hf1, ?_, ?_⟩
      · simp only [runFinal, readFrames, writtenFrames]
        rw [hr1, hr3, List.append_assoc, hf2, hr4,
          ← List.append_assoc, List.take_append_drop]
      · intro s hs
        simp only [statesOf, List.mem_cons] at hs
        rcases hs with hs | hs
        · subst hs; exact hwf.2.2.1
        · exact hf3 s hs

/-- C2: over any sequence of writes and reads that respects the capacity
and the available count, the frames delivered by the reads are exactly the
frames previously written, per channel and first-in-first-out (they are a
prefix of the written frames, and together with what is still queued they
are all of them), and `available` never exceeds `capacity` at any point of
the run. -/
theorem C2_fifo_round_trip (cap ch : Nat) (hcap : 0 < cap) (hch : 0 < ch)
    (ops : List RBOp) (hleg : legalb (RingBuffer.new cap ch) ops = true) :
    readFrames (RingBuffer.new cap ch) ops ++
        (runFinal (RingBuffer.new cap ch) ops).toQueue =
      writtenFrames ch ops ∧
    (∃ pending, readFrames (RingBuffer.new cap ch) ops ++ pending =
      writtenFrames ch ops) ∧
    ∀ s ∈ statesOf (RingBuffer.new cap ch) ops,
      s.available ≤ s.capacity := by
  obtain ⟨-, h2, h3⟩ :=
    runFrames_invariant ops (RingBuffer.new cap ch)
      (RingBuffer.wf_new hcap hch) hleg
  rw [toQueue_new, List.nil_append] at h2
  have h2ch : readFrames (RingBuffer.new cap ch) ops ++
      (runFinal (RingBuffer.new cap ch) ops).toQueue =
      writtenFrames ch ops := by
    simpa [RingBuffer.new] using h2
  exact ⟨h2ch, ⟨(runFinal (RingBuffer.new cap ch) ops).toQueue, h2ch⟩, h3⟩

/-- Witness for C2: the concrete run `opsEx` is legal on a fresh capacity-3
two-channel buffer, and its reads return exactly the written frames in
order. -/
theorem C2_fifo_round_trip_witness :
    0 < 3 ∧ 0 < 2 ∧ legalb (RingBuffer.new 3 2) opsEx = true ∧
    readFrames (RingBuffer.new 3 2) opsEx ++
        (runFinal (RingBuffer.new 3 2) opsEx).toQueue =
      writtenFrames 2 opsEx ∧
    readFrames (RingBuffer.new 3 2) opsEx =
      [[1, 10], [2, 20], [3, 30]] :=
  ⟨by decide, by decide, by decide,
    (C2_fifo_round_trip 3 2 (by decide) (by decide) opsEx (by decide)).1,
    by decide⟩

theorem readInto_length (rb : RingBuffer) (chan : List ℚ) (c n : Nat) :
    (rb.readInto chan c n).length = chan.length := by
  simp only [RingBuffer.readInto, List.length_append, List.length_take,
    List.length_map, List.length_range, List.length_drop]
  omega

theorem readChans_mem_length (rb : RingBuffer) (n : Nat) :
    ∀ (c0 : Nat) (out : List (List ℚ)) (chan2 : List ℚ),
      chan2 ∈ rb.readChans n c0 out →
      ∃ chan ∈ out, chan2.length = chan.length := by
  intro c0 out
  induction out generalizing c0 with
  | nil => intro chan2 h; simp [RingBuffer.readChans] at h
  | cons chan rest ih =>
    intro chan2 h
    simp only [RingBuffer.readChans, List.mem_cons] at h
    rcases h with h | h
    · refine ⟨chan, by simp, ?_⟩
      subst h
      split
      · exact readInto_length rb chan _ n
      · rfl
    · obtain ⟨chan3, hm, hl⟩ := ih (c0 + 1) chan2 h
      exact ⟨chan3, by simp [hm], hl⟩

/-- Witness for C1: both failure clauses at concrete inputs. -/
theorem C1_no_partial_write_or_read_witness :
    (RingBuffer.new 2 1).write [[1, 2, 3]] = (false, RingBuffer.new 2 1) ∧
    (RingBuffer.new 2 1).read [[0]] 1 = (0, [[0]], RingBuffer.new 2 1) :=
  ⟨C1_no_partial_write_or_read.1 (RingBuffer.new 2 1) [[1, 2, 3]] (by decide),
   C1_no_partial_write_or_read.2.1 (RingBuffer.new 2 1) [[0]] 1 (by decide)⟩

/-- C7 as stated fails on the code: when the output ring holds m frames and
the callback requests k > m, RingBuffer.read rejects the whole read (it is
all-or-nothing), so not even the m available frames are delivered — the
output is entirely silence and the m frames stay in the ring.  Concretely,
a two-channel ring holding one frame of value 7 asked for two frames
delivers [[0,0],[0,0]] rather than the claimed [[7,0],[7,0]]. -/
theorem C7_partial_delivery_counterexample :
    (((RingBuffer.new 8 2).write [[7], [7]]).2).available = 1 ∧
    (((RingBuffer.new 8 2).write [[7], [7]]).2).frameAt 0 = [7, 7] ∧
    (processFillOutput (((RingBuffer.new 8 2).write [[7], [7]]).2)
        (freshOut 2 2) 2).1 = [[0, 0], [0, 0]] ∧
    (processFillOutput (((RingBuffer.new 8 2).write [[7], [7]]).2)
        (freshOut 2 2) 2).2 = ((RingBuffer.new 8 2).write [[7], [7]]).2 ∧
    ([[(0 : ℚ), 0], [0, 0]] : List (List ℚ)) ≠ [[7, 0], [7, 0]] := by
  refine ⟨by decide, by decide, by decide, rfl, by decide⟩

/-- C7 amended: the render output stage never stalls and always produces
framesNeeded samples per channel.  When the ring holds fewer frames than
requested, no frames are delivered: the whole output is silence and the
ring is unchanged.  When it holds at least framesNeeded frames, exactly the
oldest framesNeeded frames are delivered and removed from the ring. -/
theorem C7_render_fills_or_silence :
    (∀ (ring : RingBuffer) (out : List (List ℚ)) (k : Nat),
      ring.available < k →
      (processFillOutput ring out k).1 =
        out.map (fun _ => List.replicate k (0 : ℚ)) ∧
      (processFillOutput ring out k).2 = ring) ∧
    (∀ (ring : RingBuffer) (out : List (List ℚ)) (k : Nat), ring.wf →
      k ≤ ring.available → out.length = ring.channels →
      (∀ chan ∈ out, k ≤ chan.length) →
      framesOfChans (processFillOutput ring out k).1 k =
        ring.toQueue.take k ∧
      (processFillOutput ring out k).2.available = ring.available - k) ∧
    (∀ (ring : RingBuffer) (out : List (List ℚ)) (k : Nat),
      (∀ chan ∈ out, chan.length = k) →
      ∀ chan2 ∈ (processFillOutput ring out k).1, chan2.length = k) := by
  refine ⟨?_, ?_, ?_⟩
  · intro ring out k hav
    have hk : 0 < k := by omega
    simp only [processFillOutput, RingBuffer.read, if_pos hav]
    rw [if_pos hk]
    refine ⟨?_, rfl⟩
    refine List.map_congr_left fun chan _ => ?_
    simp [fillSilence]
  · intro ring out k hwf hk hlen hchan
    obtain ⟨hr1, -, hr3, -, -, -, hr7⟩ := read_toQueue hwf hk hlen hchan
    have hcond : ¬ (ring.read out k).1 < k := by
      rw [hr1]
      omega
    simp only [processFillOutput, if_neg hcond]
    exact ⟨hr3, hr7⟩
  · intro ring out k hchan chan2 h2
    by_cases hav : ring.available < k
    · have hk : 0 < k := by omega
      simp only [processFillOutput, RingBuffer.read, if_pos hav,
        if_pos hk] at h2
      obtain ⟨chan3, -, rfl⟩ := List.mem_map.mp h2
      simp [fillSilence]
    · have hcond : ¬ k < k := by omega
      simp only [processFillOutput, RingBuffer.read, if_neg hav,
        if_neg hcond] at h2
      obtain ⟨chan, hm, hl⟩ := readChans_mem_length ring k 0 out chan2 h2
      rw [hl]
      exact hchan chan hm

/-- Witness for C7 amended: a fresh capacity-4 mono ring asked for two
frames delivers pure silence and is unchanged; after writing the frames
9, 8 the same ring delivers exactly the oldest frame on a one-frame read. -/
theorem C7_render_fills_or_silence_witness :
    (RingBuffer.new 4 1).available < 2 ∧
    ((processFillOutput (RingBuffer.new 4 1) [[5, 5]] 2).1 =
        ([[5, 5]] : List (List ℚ)).map (fun _ => List.replicate 2 (0 : ℚ)) ∧
      (processFillOutput (RingBuffer.new 4 1) [[5, 5]] 2).2 =
        RingBuffer.new 4 1) ∧
    1 ≤ (((RingBuffer.new 4 1).write [[9, 8]]).2).available ∧
    (framesOfChans
        (processFillOutput (((RingBuffer.new 4 1).write [[9, 8]]).2)
          [[0]] 1).1 1 =
        (((RingBuffer.new 4 1).write [[9, 8]]).2).toQueue.take 1 ∧
      (processFillOutput (((RingBuffer.new 4 1).write [[9, 8]]).2)
          [[0]] 1).2.available =
        (((RingBuffer.new 4 1).write [[9, 8]]).2).available - 1) :=
  ⟨by decide,
   C7_render_fills_or_silence.1 (RingBuffer.new 4 1) [[5, 5]] 2 (by decide),
   by decide,
   C7_render_fills_or_silence.2.1 (((RingBuffer.new 4 1).write [[9, 8]]).2)
     [[0]] 1 ⟨by decide, by decide, by decide, by decide⟩ (by decide)
     (by decide) (by decide)⟩

/-- The rejected trigger path of playPad: with a buffer present and a
non-positive computed duration, the call overwrites mode, pad id, cue and
params, forces isPlaying to false (resetting lastUpdateTime only when a
pad was playing and was stopped first), and touches nothing else. -/
theorem playPad_reject_eq (e : AudioEngine) (padId : String) (cue : ℚ)
    (params : PadParams) (now : ℚ) (hbuf : e.hasBuffer = true)
    (hdur : (if params.reverse then cue else e.getDuration - cue) ≤ 0) :
    e.playPad padId cue params now =
      { e with
        state := { e.state with
          mode := PlaybackMode.pad, currentPadId := some padId,
          cuePoint := cue, params := params, isPlaying := false },
        lastUpdateTime :=
          if e.isPadPlaying then 0 else e.lastUpdateTime } := by
  have hdur2 : (if params.reverse then cue else e.bufferDuration - cue) ≤ 0 := by
    simpa [AudioEngine.getDuration, hbuf] using hdur
  by_cases hpp : e.isPadPlaying
  · simp [AudioEngine.playPad, AudioEngine.stopPlayback,
      AudioEngine.getDuration, hbuf, hpp, hdur2]
  · simp [AudioEngine.playPad, AudioEngine.stopPlayback,
      AudioEngine.getDuration, hbuf, hpp, hdur2]

/-- The successful trigger path of playPad: with buffer and WASM present
and a positive computed duration, the whole playback state is replaced by
the trigger's values and the envelope node exists afterwards. -/
theorem playPad_success_eq (e : AudioEngine) (padId : String) (cue : ℚ)
    (params : PadParams) (now : ℚ) (hbuf : e.hasBuffer = true)
    (hwasm : e.wasmLoaded = true)
    (hdur : 0 < (if params.reverse then cue else e.getDuration - cue)) :
    e.playPad padId cue params now =
      { e with
        state := { mode := PlaybackMode.pad, cuePoint := cue,
                   startTime := now,
                   duration := (if params.reverse then cue
                                else e.getDuration - cue),
                   params := params, isPlaying := true,
                   currentPadId := some padId },
        lastUpdateTime := 0, accumulatedPosition := cue,
        hasEnvelopeGain := true } := by
  have hdur2 : ¬ (if params.reverse then cue else e.bufferDuration - cue) ≤ 0 := by
    simp only [AudioEngine.getDuration, hbuf, if_true] at hdur
    simp only [not_le]
    simpa using hdur
  by_cases hpp : e.isPadPlaying
  · simp [AudioEngine.playPad, AudioEngine.stopPlayback,
      AudioEngine.startPlayback, AudioEngine.getDuration, hbuf, hwasm, hpp,
      hdur2]
  · simp [AudioEngine.playPad, AudioEngine.stopPlayback,
      AudioEngine.startPlayback, AudioEngine.getDuration, hbuf, hwasm, hpp,
      hdur2]

/-- C3 as stated fails on the code: a rejected trigger (computed duration
<= 0) does not leave the engine state unchanged.  playPad overwrites mode,
currentPadId, cuePoint and params before checking the duration, so after
the rejected reverse trigger at cue 0 the engine carries pad mode and pad
id B even though it was idle in global mode with no pad before the call. -/
theorem C3_reject_counterexample :
    (if revParams.reverse then (0 : ℚ) else engineReady.getDuration - 0) ≤ 0 ∧
    (engineReady.playPad "B" 0 revParams 5).state.isPlaying = false ∧
    engineReady.state.mode = PlaybackMode.global ∧
    engineReady.state.currentPadId = none ∧
    (engineReady.playPad "B" 0 revParams 5).state.mode = PlaybackMode.pad ∧
    (engineReady.playPad "B" 0 revParams 5).state.currentPadId = some "B" := by
  refine ⟨by norm_num [revParams], ?_, by norm_num [engineReady,
    AudioEngine.init, AudioEngine.setAudioBuffer], by norm_num [engineReady,
    AudioEngine.init, AudioEngine.setAudioBuffer], ?_, ?_⟩ <;>
  norm_num [engineReady, AudioEngine.init, AudioEngine.setAudioBuffer,
    AudioEngine.playPad, AudioEngine.isPadPlaying, AudioEngine.stopPlayback,
    AudioEngine.startPlayback, AudioEngine.getDuration, revParams]

/-- C3 amended: playPad computes the segment duration as cue (reverse) or
totalDuration - cue (forward); a trigger whose duration is <= 0 is
rejected: no playback starts (isPlaying is false, startTime, duration,
position tracking and globalOffset are untouched), but mode, currentPadId,
cuePoint and params have already been overwritten with the trigger's
values (and a previously playing pad has been stopped, resetting
lastUpdateTime). -/
theorem C3_duration_formula_and_reject :
    (∀ (e : AudioEngine) (padId : String) (cue : ℚ) (params : PadParams)
      (now : ℚ), e.hasBuffer = true → e.wasmLoaded = true →
      0 < (if params.reverse then cue else e.getDuration - cue) →
      (e.playPad padId cue params now).state.duration =
        (if params.reverse then cue else e.getDuration - cue) ∧
      (e.playPad padId cue params now).state.isPlaying = true) ∧
    (∀ (e : AudioEngine) (padId : String) (cue : ℚ) (params : PadParams)
      (now : ℚ), e.hasBuffer = true →
      (if params.reverse then cue else e.getDuration - cue) ≤ 0 →
      (e.playPad padId cue params now).state.isPlaying = false ∧
      (e.playPad padId cue params now).state.startTime = e.state.startTime ∧
      (e.playPad padId cue params now).state.duration = e.state.duration ∧
      (e.playPad padId cue params now).accumulatedPosition =
        e.accumulatedPosition ∧
      (e.playPad padId cue params now).globalOffset = e.globalOffset ∧
      (e.playPad padId cue params now).state.mode = PlaybackMode.pad ∧
      (e.playPad padId cue params now).state.currentPadId = some padId ∧
      (e.playPad padId cue params now).state.cuePoint = cue ∧
      (e.playPad padId cue params now).state.params = params) := by
  constructor
  · intro e padId cue params now hbuf hwasm hdur
    rw [playPad_success_eq e padId cue params now hbuf hwasm hdur]
    exact ⟨rfl, rfl⟩
  · intro e padId cue params now hbuf hdur
    rw [playPad_reject_eq e padId cue params now hbuf hdur]
    exact ⟨rfl, rfl, rfl, rfl, rfl, rfl, rfl, rfl, rfl⟩

/-- Witness for C3 amended: a valid forward trigger on a 10 s source at
cue 2 gets duration 8 and plays; the rejected reverse trigger at cue 0
keeps isPlaying false but carries pad id B. -/
theorem C3_duration_formula_and_reject_witness :
    engineReady.hasBuffer = true ∧ engineReady.wasmLoaded = true ∧
    (0 : ℚ) <
      (if fwdParams.reverse then 2 else engineReady.getDuration - 2) ∧
    ((engineReady.playPad "A" 2 fwdParams 0).state.duration =
        (if fwdParams.reverse then 2 else engineReady.getDuration - 2) ∧
      (engineReady.playPad "A" 2 fwdParams 0).state.isPlaying = true) ∧
    ((engineReady.playPad "B" 0 revParams 5).state.isPlaying = false ∧
      (engineReady.playPad "B" 0 revParams 5).state.startTime =
        engineReady.state.startTime ∧
      (engineReady.playPad "B" 0 revParams 5).state.duration =
        engineReady.state.duration ∧
      (engineReady.playPad "B" 0 revParams 5).accumulatedPosition =
        engineReady.accumulatedPosition ∧
      (engineReady.playPad "B" 0 revParams 5).globalOffset =
        engineReady.globalOffset ∧
      (engineReady.playPad "B" 0 revParams 5).state.mode =
        PlaybackMode.pad ∧
      (engineReady.playPad "B" 0 revParams 5).state.currentPadId =
        some "B" ∧
      (engineReady.playPad "B" 0 revParams 5).state.cuePoint = 0 ∧
      (engineReady.playPad "B" 0 revParams 5).state.params = revParams) :=
  ⟨rfl, rfl,
   by norm_num [fwdParams, engineReady, AudioEngine.init,
     AudioEngine.setAudioBuffer, AudioEngine.getDuration],
   C3_duration_formula_and_reject.1 engineReady "A" 2 fwdParams 0 rfl rfl
     (by norm_num [fwdParams, engineReady, AudioEngine.init,
       AudioEngine.setAudioBuffer, AudioEngine.getDuration]),
   C3_duration_formula_and_reject.2 engineReady "B" 0 revParams 5 rfl
     (by norm_num [revParams])⟩

/-- isPadPlaying unfolded. -/
theorem isPadPlaying_iff (e : AudioEngine) :
    e.isPadPlaying = true ↔
      e.state.isPlaying = true ∧ e.state.mode = PlaybackMode.pad := by
  simp [AudioEngine.isPadPlaying]

/-- C5: the engine is monophonic — a successful playPad replaces the whole
single playback-state record with the trigger's values; the resulting
segment state is fully determined by the trigger (and the source duration)
and carries no remnant of whatever pad or global segment was live before. -/
theorem C5_monophonic_supersede (e : AudioEngine) (padId : String)
    (cue : ℚ) (params : PadParams) (now : ℚ) (hbuf : e.hasBuffer = true)
    (hwasm : e.wasmLoaded = true)
    (hdur : 0 < (if params.reverse then cue else e.getDuration - cue)) :
    (e.playPad padId cue params now).state =
      { mode := PlaybackMode.pad, cuePoint := cue, startTime := now,
        duration := (if params.reverse then cue else e.getDuration - cue),
        params := params, isPlaying := true,
        currentPadId := some padId } := by
  rw [playPad_success_eq e padId cue params now hbuf hwasm hdur]

/-- Witness for C5: triggering pad B while pad A is rendering leaves
exactly B's segment state. -/
theorem C5_monophonic_supersede_witness :
    enginePadA.state.currentPadId = some "A" ∧
    enginePadA.state.isPlaying = true ∧
    enginePadA.hasBuffer = true ∧ enginePadA.wasmLoaded = true ∧
    (0 : ℚ) <
      (if fwdParams.reverse then 3 else enginePadA.getDuration - 3) ∧
    (enginePadA.playPad "B" 3 fwdParams 7).state =
      { mode := PlaybackMode.pad, cuePoint := 3, startTime := 7,
        duration :=
          (if fwdParams.reverse then 3 else enginePadA.getDuration - 3),
        params := fwdParams, isPlaying := true,
        currentPadId := some "B" } :=
  ⟨by norm_num [enginePadA, engineReady, AudioEngine.init,
      AudioEngine.setAudioBuffer, AudioEngine.seek, AudioEngine.pause,
      AudioEngine.playPad, AudioEngine.isPadPlaying,
      AudioEngine.stopPlayback, AudioEngine.startPlayback,
      AudioEngine.getDuration, fwdParams, unityParams],
   by norm_num [enginePadA, engineReady, AudioEngine.init,
      AudioEngine.setAudioBuffer, AudioEngine.seek, AudioEngine.pause,
      AudioEngine.playPad, AudioEngine.isPadPlaying,
      AudioEngine.stopPlayback, AudioEngine.startPlayback,
      AudioEngine.getDuration, fwdParams, unityParams],
   by norm_num [enginePadA, engineReady, AudioEngine.init,
      AudioEngine.setAudioBuffer, AudioEngine.seek, AudioEngine.pause,
      AudioEngine.playPad, AudioEngine.isPadPlaying,
      AudioEngine.stopPlayback, AudioEngine.startPlayback,
      AudioEngine.getDuration, fwdParams, unityParams],
   by norm_num [enginePadA, engineReady, AudioEngine.init,
      AudioEngine.setAudioBuffer, AudioEngine.seek, AudioEngine.pause,
      AudioEngine.playPad, AudioEngine.isPadPlaying,
      AudioEngine.stopPlayback, AudioEngine.startPlayback,
      AudioEngine.getDuration, fwdParams, unityParams],
   by norm_num [enginePadA, engineReady, AudioEngine.init,
      AudioEngine.setAudioBuffer, AudioEngine.seek, AudioEngine.pause,
      AudioEngine.playPad, AudioEngine.isPadPlaying,
      AudioEngine.stopPlayback, AudioEngine.startPlayback,
      AudioEngine.getDuration, fwdParams, unityParams],
   C5_monophonic_supersede enginePadA "B" 3 fwdParams 7
     (by norm_num [enginePadA, engineReady, AudioEngine.init,
       AudioEngine.setAudioBuffer, AudioEngine.seek, AudioEngine.pause,
       AudioEngine.playPad, AudioEngine.isPadPlaying,
       AudioEngine.stopPlayback, AudioEngine.startPlayback,
       AudioEngine.getDuration, fwdParams, unityParams])
     (by norm_num [enginePadA, engineReady, AudioEngine.init,
       AudioEngine.setAudioBuffer, AudioEngine.seek, AudioEngine.pause,
       AudioEngine.playPad, AudioEngine.isPadPlaying,
       AudioEngine.stopPlayback, AudioEngine.startPlayback,
       AudioEngine.getDuration, fwdParams, unityParams])
     (by norm_num [enginePadA, engineReady, AudioEngine.init,
       AudioEngine.setAudioBuffer, AudioEngine.seek, AudioEngine.pause,
       AudioEngine.playPad, AudioEngine.isPadPlaying,
       AudioEngine.stopPlayback, AudioEngine.startPlayback,
       AudioEngine.getDuration, fwdParams, unityParams])⟩

/-- playPad never writes globalOffset, on any of its paths. -/
theorem playPad_globalOffset (e : AudioEngine) (padId : String) (cue : ℚ)
    (params : PadParams) (now : ℚ) :
    (e.playPad padId cue params now).globalOffset = e.globalOffset := by
  by_cases hpp : e.isPadPlaying
  · simp only [AudioEngine.playPad, AudioEngine.stopPlayback,
      AudioEngine.startPlayback, hpp, if_true]
    repeat' split
    all_goals rfl
  · simp only [AudioEngine.playPad, AudioEngine.stopPlayback,
      AudioEngine.startPlayback, hpp, if_false]
    repeat' split
    all_goals rfl

/-- Completion of a pad-mode segment never writes globalOffset. -/
theorem checkPlaybackCompletion_pad_globalOffset (e : AudioEngine)
    (now : ℚ) (hmode : e.state.mode = PlaybackMode.pad) :
    (e.checkPlaybackCompletion now).globalOffset = e.globalOffset := by
  simp only [AudioEngine.checkPlaybackCompletion, AudioEngine.stopPlayback]
  split
  · split
    · rfl
    · split
      · rfl
      · simp_all
  · rfl

/-- C6 as stated fails on the code: stopPad is a pad operation that writes
globalOffset.  With pad A playing from cue 2 and the transport parked at
5, stopPad schedules its delayed stop and the timeout callback commits the
pad's cue point: globalOffset becomes 2, not the prior 5. -/
theorem C6_stopPad_counterexample :
    enginePadA.isPadPlaying = true ∧
    enginePadA.globalOffset = 5 ∧
    enginePadA.state.cuePoint = 2 ∧
    (enginePadA.stopPad 1).2 = PendingStop.delayed (some "A") 2 ∧
    (enginePadA.stopPadTimeout (some "A") 2).globalOffset = 2 ∧
    (2 : ℚ) ≠ 5 := by
  refine ⟨?_, ?_, ?_, ?_, ?_, by norm_num⟩ <;>
  norm_num [enginePadA, engineReady, AudioEngine.init,
    AudioEngine.setAudioBuffer, AudioEngine.seek, AudioEngine.pause,
    AudioEngine.playPad, AudioEngine.isPadPlaying, AudioEngine.stopPlayback,
    AudioEngine.startPlayback, AudioEngine.getDuration, AudioEngine.stopPad,
    AudioEngine.stopPadTimeout, fwdParams, unityParams]

/-- C6 amended: globalOffset is updated by global-mode transitions and by
stopPad — which commits the stopped pad's cue point as the new offset via
its delayed callback — while playPad and completion of a pad-mode segment
never change it. -/
theorem C6_globalOffset_discipline :
    (∀ (e : AudioEngine) (padId : String) (cue : ℚ) (params : PadParams)
      (now : ℚ),
      (e.playPad padId cue params now).globalOffset = e.globalOffset) ∧
    (∀ (e : AudioEngine) (now : ℚ), e.state.mode = PlaybackMode.pad →
      (e.checkPlaybackCompletion now).globalOffset = e.globalOffset) ∧
    (∀ (e : AudioEngine) (now : ℚ), e.isPadPlaying = true →
      e.hasEnvelopeGain = true →
      e.stopPad now =
        (e, PendingStop.delayed e.state.currentPadId e.state.cuePoint) ∧
      (e.stopPadTimeout e.state.currentPadId e.state.cuePoint).globalOffset =
        e.state.cuePoint) := by
  refine ⟨playPad_globalOffset, checkPlaybackCompletion_pad_globalOffset,
    ?_⟩
  intro e now hpp henv
  obtain ⟨-, hmode⟩ := (isPadPlaying_iff e).mp hpp
  constructor
  · simp [AudioEngine.stopPad, hpp, henv]
  · simp [AudioEngine.stopPadTimeout, AudioEngine.stopPlayback, hmode]

/-- Witness for C6 amended: playPad and a pad-mode completion leave the
offset at 5, and stopPad's delayed callback moves it to the cue point. -/
theorem C6_globalOffset_discipline_witness :
    (enginePadA.playPad "B" 3 fwdParams 7).globalOffset =
      enginePadA.globalOffset ∧
    enginePadA.state.mode = PlaybackMode.pad ∧
    (enginePadA.checkPlaybackCompletion 20).globalOffset =
      enginePadA.globalOffset ∧
    enginePadA.isPadPlaying = true ∧
    enginePadA.hasEnvelopeGain = true ∧
    (enginePadA.stopPad 1 =
        (enginePadA,
          PendingStop.delayed enginePadA.state.currentPadId
            enginePadA.state.cuePoint) ∧
      (enginePadA.stopPadTimeout enginePadA.state.currentPadId
          enginePadA.state.cuePoint).globalOffset =
        enginePadA.state.cuePoint) :=
  ⟨C6_globalOffset_discipline.1 enginePadA "B" 3 fwdParams 7,
   by norm_num [enginePadA, engineReady, AudioEngine.init,
     AudioEngine.setAudioBuffer, AudioEngine.seek, AudioEngine.pause,
     AudioEngine.playPad, AudioEngine.isPadPlaying,
     AudioEngine.stopPlayback, AudioEngine.startPlayback,
     AudioEngine.getDuration, fwdParams, unityParams],
   C6_globalOffset_discipline.2.1 enginePadA 20
     (by norm_num [enginePadA, engineReady, AudioEngine.init,
       AudioEngine.setAudioBuffer, AudioEngine.seek, AudioEngine.pause,
       AudioEngine.playPad, AudioEngine.isPadPlaying,
       AudioEngine.stopPlayback, AudioEngine.startPlayback,
       AudioEngine.getDuration, fwdParams, unityParams]),
   by norm_num [enginePadA, engineReady, AudioEngine.init,
     AudioEngine.setAudioBuffer, AudioEngine.seek, AudioEngine.pause,
     AudioEngine.playPad, AudioEngine.isPadPlaying,
     AudioEngine.stopPlayback, AudioEngine.startPlayback,
     AudioEngine.getDuration, fwdParams, unityParams],
   by norm_num [enginePadA, engineReady, AudioEngine.init,
     AudioEngine.setAudioBuffer, AudioEngine.seek, AudioEngine.pause,
     AudioEngine.playPad, AudioEngine.isPadPlaying,
     AudioEngine.stopPlayback, AudioEngine.startPlayback,
     AudioEngine.getDuration, fwdParams, unityParams],
   C6_globalOffset_discipline.2.2 enginePadA 1
     (by norm_num [enginePadA, engineReady, AudioEngine.init,
       AudioEngine.setAudioBuffer, AudioEngine.seek, AudioEngine.pause,
       AudioEngine.playPad, AudioEngine.isPadPlaying,
       AudioEngine.stopPlayback, AudioEngine.startPlayback,
       AudioEngine.getDuration, fwdParams, unityParams])
     (by norm_num [enginePadA, engineReady, AudioEngine.init,
       AudioEngine.setAudioBuffer, AudioEngine.seek, AudioEngine.pause,
       AudioEngine.playPad, AudioEngine.isPadPlaying,
       AudioEngine.stopPlayback, AudioEngine.startPlayback,
       AudioEngine.getDuration, fwdParams, unityParams])⟩

/-- C4: whenever the engine is playing and the effective elapsed time
(now - startTime) * (speed * globalSpeed) reaches duration - 0.01, the
completion check stops playback and snaps the reported position to the
exact segment end — 0 for a reverse segment, min(totalDuration,
segmentStart + segmentDuration) for a forward one — and in global mode
(and only there) commits it as the new globalOffset.  The side conditions
relate global mode to the states the transport can actually produce:
global segments are forward with cuePoint = globalOffset.  The spec's
example: play() with prior offset 4 on a 10 s source runs a 6 s segment
and completion sets globalOffset to 10. -/
theorem C4_completion_snap :
    (∀ (e : AudioEngine) (now : ℚ), e.state.isPlaying = true →
      (e.state.mode = PlaybackMode.global →
        e.state.params.reverse = false ∧
        e.state.cuePoint = e.globalOffset) →
      (now - e.state.startTime) * (e.state.params.speed * e.globalSpeed) ≥
        e.state.duration - 1 / 100 →
      (e.checkPlaybackCompletion now).state.isPlaying = false ∧
      (e.checkPlaybackCompletion now).accumulatedPosition =
        (if e.state.params.reverse then 0
         else min e.getDuration (e.state.cuePoint + e.state.duration)) ∧
      (e.checkPlaybackCompletion now).globalOffset =
        (if e.state.mode = PlaybackMode.global then
          (e.checkPlaybackCompletion now).accumulatedPosition
         else e.globalOffset)) ∧
    (enginePlaying4.state.duration = 6 ∧ enginePlaying4.globalOffset = 4 ∧
      (enginePlaying4.checkPlaybackCompletion 6).globalOffset = 10) := by
  constructor
  · intro e now _ hglob hdone
    have hdone2 : e.state.duration ≤
        (now - e.state.startTime) * (e.state.params.speed * e.globalSpeed) +
          100⁻¹ := by linarith
    by_cases hrev : e.state.params.reverse
    · have hmode : e.state.mode = PlaybackMode.pad := by
        cases hm : e.state.mode
        · exact absurd (hglob hm).1 (by simp [hrev])
        · rfl
      simp [AudioEngine.checkPlaybackCompletion, AudioEngine.stopPlayback,
        AudioEngine.getDuration, hdone2, hrev, hmode]
    · cases hm : e.state.mode
      · obtain ⟨-, hcue⟩ := hglob hm
        simp [AudioEngine.checkPlaybackCompletion, AudioEngine.stopPlayback,
          AudioEngine.getDuration, hdone2, hrev, hm, hcue]
      · simp [AudioEngine.checkPlaybackCompletion, AudioEngine.stopPlayback,
          AudioEngine.getDuration, hdone2, hrev, hm]
  · refine ⟨?_, ?_, ?_⟩ <;>
    norm_num [enginePlaying4, engineReady, AudioEngine.init,
      AudioEngine.setAudioBuffer, AudioEngine.seek, AudioEngine.pause,
      AudioEngine.play, AudioEngine.checkPlaybackCompletion,
      AudioEngine.stopPlayback, AudioEngine.startPlayback,
      AudioEngine.getDuration, unityParams] <;> simp

/-- Witness for C4: the completion of the spec's example segment (offset 4,
duration 6, completion at t = 6). -/
theorem C4_completion_snap_witness :
    enginePlaying4.state.isPlaying = true ∧
    (enginePlaying4.state.mode = PlaybackMode.global →
      enginePlaying4.state.params.reverse = false ∧
      enginePlaying4.state.cuePoint = enginePlaying4.globalOffset) ∧
    ((6 : ℚ) - enginePlaying4.state.startTime) *
        (enginePlaying4.state.params.speed * enginePlaying4.globalSpeed) ≥
      enginePlaying4.state.duration - 1 / 100 ∧
    ((enginePlaying4.checkPlaybackCompletion 6).state.isPlaying = false ∧
      (enginePlaying4.checkPlaybackCompletion 6).accumulatedPosition =
        (if enginePlaying4.state.params.reverse then 0
         else min enginePlaying4.getDuration
           (enginePlaying4.state.cuePoint + enginePlaying4.state.duration)) ∧
      (enginePlaying4.checkPlaybackCompletion 6).globalOffset =
        (if enginePlaying4.state.mode = PlaybackMode.global then
          (enginePlaying4.checkPlaybackCompletion 6).accumulatedPosition
         else enginePlaying4.globalOffset)) :=
  ⟨by norm_num [enginePlaying4, engineReady, AudioEngine.init,
      AudioEngine.setAudioBuffer, AudioEngine.seek, AudioEngine.pause,
      AudioEngine.play, AudioEngine.stopPlayback, AudioEngine.startPlayback,
      AudioEngine.getDuration, unityParams],
   by norm_num [enginePlaying4, engineReady, AudioEngine.init,
      AudioEngine.setAudioBuffer, AudioEngine.seek, AudioEngine.pause,
      AudioEngine.play, AudioEngine.stopPlayback, AudioEngine.startPlayback,
      AudioEngine.getDuration, unityParams],
   by norm_num [enginePlaying4, engineReady, AudioEngine.init,
      AudioEngine.setAudioBuffer, AudioEngine.seek, AudioEngine.pause,
      AudioEngine.play, AudioEngine.stopPlayback, AudioEngine.startPlayback,
      AudioEngine.getDuration, unityParams],
   C4_completion_snap.1 enginePlaying4 6
     (by norm_num [enginePlaying4, engineReady, AudioEngine.init,
       AudioEngine.setAudioBuffer, AudioEngine.seek, AudioEngine.pause,
       AudioEngine.play, AudioEngine.stopPlayback,
       AudioEngine.startPlayback, AudioEngine.getDuration, unityParams])
     (by norm_num [enginePlaying4, engineReady, AudioEngine.init,
       AudioEngine.setAudioBuffer, AudioEngine.seek, AudioEngine.pause,
       AudioEngine.play, AudioEngine.stopPlayback,
       AudioEngine.startPlayback, AudioEngine.getDuration, unityParams])
     (by norm_num [enginePlaying4, engineReady, AudioEngine.init,
       AudioEngine.setAudioBuffer, AudioEngine.seek, AudioEngine.pause,
       AudioEngine.play, AudioEngine.stopPlayback,
       AudioEngine.startPlayback, AudioEngine.getDuration, unityParams])⟩

/-- C9: getCurrentTime is not a pure observer.  While playing, the call
advances accumulatedPosition by (now - last) * speed * globalSpeed (last
being lastUpdateTime, or startTime right after a start, and subtracting
for reverse), sets lastUpdateTime to now, and runs the completion check on
that updated state — so the call itself can stop playback, commit the
global offset and fire onStop, as the closed conjunct shows on the 6 s
global segment.  When not playing it mutates nothing and returns the
stored position. -/
theorem C9_getCurrentTime_impure :
    (∀ (e : AudioEngine) (now : ℚ), e.state.isPlaying = true →
      (e.getCurrentTime now).2 =
        AudioEngine.checkPlaybackCompletion
          { e with
            accumulatedPosition :=
              (if e.state.params.reverse then
                e.accumulatedPosition -
                  (now - (if e.lastUpdateTime = 0 then e.state.startTime
                          else e.lastUpdateTime)) *
                    (e.state.params.speed * e.globalSpeed)
               else
                e.accumulatedPosition +
                  (now - (if e.lastUpdateTime = 0 then e.state.startTime
                          else e.lastUpdateTime)) *
                    (e.state.params.speed * e.globalSpeed)),
            lastUpdateTime := now } now ∧
      (e.getCurrentTime now).1 =
        max 0 (min (e.getCurrentTime now).2.getDuration
          (e.getCurrentTime now).2.accumulatedPosition)) ∧
    (∀ (e : AudioEngine) (now : ℚ), e.state.isPlaying = false →
      (e.getCurrentTime now).2 = e ∧
      (e.getCurrentTime now).1 =
        (if e.state.mode = PlaybackMode.pad then e.accumulatedPosition
         else max 0 (min e.getDuration e.globalOffset))) ∧
    (enginePlaying4.state.isPlaying = true ∧
      enginePlaying4.onStopCount = 0 ∧ enginePlaying4.globalOffset = 4 ∧
      (enginePlaying4.getCurrentTime 6).2.state.isPlaying = false ∧
      (enginePlaying4.getCurrentTime 6).2.globalOffset = 10 ∧
      (enginePlaying4.getCurrentTime 6).2.onStopCount = 1) := by
  refine ⟨?_, ?_, ?_⟩
  · intro e now hplay
    by_cases hrev : e.state.params.reverse <;>
      simp [AudioEngine.getCurrentTime, AudioEngine.updatePosition, hplay,
        hrev]
  · intro e now hnp
    by_cases hm : e.state.mode = PlaybackMode.pad <;>
      simp [AudioEngine.getCurrentTime, hnp, hm]
  · refine ⟨?_, ?_, ?_, ?_, ?_, ?_⟩ <;>
    norm_num [enginePlaying4, engineReady, AudioEngine.init,
      AudioEngine.setAudioBuffer, AudioEngine.seek, AudioEngine.pause,
      AudioEngine.play, AudioEngine.getCurrentTime,
      AudioEngine.updatePosition, AudioEngine.checkPlaybackCompletion,
      AudioEngine.stopPlayback, AudioEngine.startPlayback,
      AudioEngine.getDuration, unityParams] <;> simp

/-- Witness for C9: the playing clause at the example engine and the pure
clause at an idle engine. -/
theorem C9_getCurrentTime_impure_witness :
    enginePlaying4.state.isPlaying = true ∧
    engineReady.state.isPlaying = false ∧
    ((enginePlaying4.getCurrentTime 3).2 =
        AudioEngine.checkPlaybackCompletion
          { enginePlaying4 with
            accumulatedPosition :=
              (if enginePlaying4.state.params.reverse then
                enginePlaying4.accumulatedPosition -
                  ((3 : ℚ) -
                      (if enginePlaying4.lastUpdateTime = 0 then
                        enginePlaying4.state.startTime
                       else enginePlaying4.lastUpdateTime)) *
                    (enginePlaying4.state.params.speed *
                      enginePlaying4.globalSpeed)
               else
                enginePlaying4.accumulatedPosition +
                  ((3 : ℚ) -
                      (if enginePlaying4.lastUpdateTime = 0 then
                        enginePlaying4.state.startTime
                       else enginePlaying4.lastUpdateTime)) *
                    (enginePlaying4.state.params.speed *
                      enginePlaying4.globalSpeed)),
            lastUpdateTime := 3 } 3 ∧
      (enginePlaying4.getCurrentTime 3).1 =
        max 0 (min (enginePlaying4.getCurrentTime 3).2.getDuration
          (enginePlaying4.getCurrentTime 3).2.accumulatedPosition)) ∧
    ((engineReady.getCurrentTime 3).2 = engineReady ∧
      (engineReady.getCurrentTime 3).1 =
        (if engineReady.state.mode = PlaybackMode.pad then
          engineReady.accumulatedPosition
         else max 0 (min engineReady.getDuration engineReady.globalOffset))) :=
  ⟨by norm_num [enginePlaying4, engineReady, AudioEngine.init,
      AudioEngine.setAudioBuffer, AudioEngine.seek, AudioEngine.pause,
      AudioEngine.play, AudioEngine.stopPlayback, AudioEngine.startPlayback,
      AudioEngine.getDuration, unityParams],
   by norm_num [engineReady, AudioEngine.init, AudioEngine.setAudioBuffer],
   C9_getCurrentTime_impure.1 enginePlaying4 3
     (by norm_num [enginePlaying4, engineReady, AudioEngine.init,
       AudioEngine.setAudioBuffer, AudioEngine.seek, AudioEngine.pause,
       AudioEngine.play, AudioEngine.stopPlayback,
       AudioEngine.startPlayback, AudioEngine.getDuration, unityParams]),
   C9_getCurrentTime_impure.2.1 engineReady 3
     (by norm_num [engineReady, AudioEngine.init,
       AudioEngine.setAudioBuffer])⟩

/-- C10: stopPad with no pad playing is not a no-op — it falls back to
pause().  If global playback is running it is stopped and globalOffset is
set to the current estimated position (the value getCurrentTime reports);
if nothing is playing the engine is forced back to global mode with unity
parameters (pad id cleared, lastUpdateTime reset, offset kept). -/
theorem C10_stopPad_fallback :
    (∀ (e : AudioEngine) (now : ℚ), e.isPadPlaying = false →
      e.stopPad now = (e.pause now, PendingStop.none)) ∧
    (∀ (e : AudioEngine) (now : ℚ), e.state.isPlaying = true →
      e.state.mode = PlaybackMode.global →
      (e.stopPad now).1.state.isPlaying = false ∧
      (e.stopPad now).1.globalOffset = (e.getCurrentTime now).1 ∧
      (e.stopPad now).1.state.mode = PlaybackMode.global) ∧
    (∀ (e : AudioEngine) (now : ℚ), e.state.isPlaying = false →
      (e.stopPad now).1 =
        { e with
          state := { e.state with
            mode := PlaybackMode.global, params := unityParams,
            isPlaying := false, currentPadId := none },
          lastUpdateTime := 0 }) := by
  refine ⟨?_, ?_, ?_⟩
  · intro e now hpf
    simp [AudioEngine.stopPad, hpf]
  · intro e now hplay hmode
    have hpf : e.isPadPlaying = false := by
      simp [AudioEngine.isPadPlaying, hmode]
    simp [AudioEngine.stopPad, AudioEngine.pause, AudioEngine.stopPlayback,
      hpf, hplay]
  · intro e now hnp
    have hpf : e.isPadPlaying = false := by
      simp [AudioEngine.isPadPlaying, hnp]
    simp [AudioEngine.stopPad, AudioEngine.pause, AudioEngine.stopPlayback,
      hpf, hnp]

/-- Witness for C10: on the idle ready engine stopPad is the pause
fallback, and on the playing global engine it stops and commits the
estimated position. -/
theorem C10_stopPad_fallback_witness :
    engineReady.isPadPlaying = false ∧
    engineReady.stopPad 1 = (engineReady.pause 1, PendingStop.none) ∧
    enginePlaying4.state.isPlaying = true ∧
    enginePlaying4.state.mode = PlaybackMode.global ∧
    ((enginePlaying4.stopPad 1).1.state.isPlaying = false ∧
      (enginePlaying4.stopPad 1).1.globalOffset =
        (enginePlaying4.getCurrentTime 1).1 ∧
      (enginePlaying4.stopPad 1).1.state.mode = PlaybackMode.global) ∧
    engineReady.state.isPlaying = false ∧
    (engineReady.stopPad 1).1 =
      { engineReady with
        state := { engineReady.state with
          mode := PlaybackMode.global, params := unityParams,
          isPlaying := false, currentPadId := none },
        lastUpdateTime := 0 } :=
  ⟨by norm_num [engineReady, AudioEngine.init, AudioEngine.setAudioBuffer,
      AudioEngine.isPadPlaying],
   C10_stopPad_fallback.1 engineReady 1
     (by norm_num [engineReady, AudioEngine.init, AudioEngine.setAudioBuffer,
       AudioEngine.isPadPlaying]),
   by norm_num [enginePlaying4, engineReady, AudioEngine.init,
      AudioEngine.setAudioBuffer, AudioEngine.seek, AudioEngine.pause,
      AudioEngine.play, AudioEngine.stopPlayback, AudioEngine.startPlayback,
      AudioEngine.getDuration, unityParams],
   by norm_num [enginePlaying4, engineReady, AudioEngine.init,
      AudioEngine.setAudioBuffer, AudioEngine.seek, AudioEngine.pause,
      AudioEngine.play, AudioEngine.stopPlayback, AudioEngine.startPlayback,
      AudioEngine.getDuration, unityParams],
   C10_stopPad_fallback.2.1 enginePlaying4 1
     (by norm_num [enginePlaying4, engineReady, AudioEngine.init,
       AudioEngine.setAudioBuffer, AudioEngine.seek, AudioEngine.pause,
       AudioEngine.play, AudioEngine.stopPlayback,
       AudioEngine.startPlayback, AudioEngine.getDuration, unityParams])
     (by norm_num [enginePlaying4, engineReady, AudioEngine.init,
       AudioEngine.setAudioBuffer, AudioEngine.seek, AudioEngine.pause,
       AudioEngine.play, AudioEngine.stopPlayback,
       AudioEngine.startPlayback, AudioEngine.getDuration, unityParams]),
   by norm_num [engineReady, AudioEngine.init, AudioEngine.setAudioBuffer],
   C10_stopPad_fallback.2.2 engineReady 1
     (by norm_num [engineReady, AudioEngine.init,
       AudioEngine.setAudioBuffer])⟩

/-- pause() always leaves the engine stopped in global mode with unity
parameters and does not touch the buffer or WASM bookkeeping. -/
theorem pause_shape (e : AudioEngine) (now : ℚ) :
    (e.pause now).state.isPlaying = false ∧
    (e.pause now).state.mode = PlaybackMode.global ∧
    (e.pause now).state.params = unityParams ∧
    (e.pause now).hasBuffer = e.hasBuffer ∧
    (e.pause now).bufferDuration = e.bufferDuration ∧
    (e.pause now).wasmLoaded = e.wasmLoaded := by
  refine ⟨?_, ?_, ?_, ?_, ?_, ?_⟩ <;>
  · simp only [AudioEngine.pause, AudioEngine.getCurrentTime,
      AudioEngine.updatePosition, AudioEngine.checkPlaybackCompletion,
      AudioEngine.stopPlayback]
    repeat' split
    all_goals rfl

/-- play() from a stopped engine with the offset strictly inside the
source: starts the forward global segment from the offset. -/
theorem play_fields (e : AudioEngine) (now : ℚ)
    (hnp : e.state.isPlaying = false) (hbuf : e.hasBuffer = true)
    (hwasm : e.wasmLoaded = true) (hoff : e.globalOffset < e.getDuration) :
    (e.play now).globalOffset = e.globalOffset ∧
    (e.play now).state.isPlaying = true ∧
    (e.play now).state.cuePoint = e.globalOffset ∧
    (e.play now).state.startTime = now ∧
    (e.play now).state.duration = e.getDuration - e.globalOffset ∧
    (e.play now).state.mode = PlaybackMode.global ∧
    (e.play now).state.params = unityParams ∧
    (e.play now).accumulatedPosition = e.globalOffset := by
  have hoff2 : e.globalOffset < e.bufferDuration := by
    simpa [AudioEngine.getDuration, hbuf] using hoff
  have hcond : ¬ (e.bufferDuration - e.globalOffset ≤ 0) := by linarith
  simp [AudioEngine.play, AudioEngine.stopPlayback,
    AudioEngine.startPlayback, AudioEngine.getDuration, hnp, hbuf, hwasm,
    hcond]

/-- play() from a stopped engine with the offset at or past the end of the
source: the non-positive duration resets globalOffset and the cue to 0
(and the stale duration is started anyway). -/
theorem play_overrun_fields (e : AudioEngine) (now : ℚ)
    (hnp : e.state.isPlaying = false) (hbuf : e.hasBuffer = true)
    (hwasm : e.wasmLoaded = true) (hoff : e.getDuration ≤ e.globalOffset) :
    (e.play now).globalOffset = 0 ∧
    (e.play now).state.cuePoint = 0 ∧
    (e.play now).state.isPlaying = true ∧
    (e.play now).state.duration = e.getDuration - e.globalOffset ∧
    (e.play now).accumulatedPosition = 0 := by
  have hoff2 : e.bufferDuration ≤ e.globalOffset := by
    simpa [AudioEngine.getDuration, hbuf] using hoff
  have hcond : e.bufferDuration - e.globalOffset ≤ 0 := by linarith
  simp [AudioEngine.play, AudioEngine.stopPlayback,
    AudioEngine.startPlayback, AudioEngine.getDuration, hnp, hbuf, hwasm,
    hcond]

/-- C8 as stated fails on the code: seeking to the end while playing does
not leave globalOffset at the clamped target.  On a playing 10 s source,
seek(10) clamps to 10, but the resume play() then computes duration
10 - 10 = 0 <= 0 and resets globalOffset (and the cue) to 0. -/
theorem C8_seek_counterexample :
    (engineReady.play 0).state.isPlaying = true ∧
    max 0 (min (10 : ℚ) (engineReady.play 0).getDuration) = 10 ∧
    ((engineReady.play 0).seek 10 1).globalOffset = 0 ∧
    ((0 : ℚ) = 10) = False := by
  refine ⟨?_, ?_, ?_, by norm_num⟩ <;>
  norm_num [engineReady, AudioEngine.init, AudioEngine.setAudioBuffer,
    AudioEngine.play, AudioEngine.seek, AudioEngine.pause,
    AudioEngine.getCurrentTime, AudioEngine.updatePosition,
    AudioEngine.checkPlaybackCompletion, AudioEngine.stopPlayback,
    AudioEngine.startPlayback, AudioEngine.getDuration, unityParams]

/-- The playing branch of seek(): pause, then play() on the engine with
the clamped target installed as globalOffset (and position tracking reset
to it, global mode, unity parameters). -/
theorem seek_playing_eq (e : AudioEngine) (t now : ℚ)
    (hp : e.state.isPlaying = true) :
    e.seek t now =
      AudioEngine.play
        { e.pause now with
          globalOffset := max 0 (min t (e.pause now).getDuration),
          state := { (e.pause now).state with
            mode := PlaybackMode.global, params := unityParams },
          lastUpdateTime := 0,
          accumulatedPosition := max 0 (min t (e.pause now).getDuration) }
        now := by
  simp only [AudioEngine.seek, hp, if_true]

/-- C8 amended: seek(t) clamps t into [0, totalDuration] and stores it as
globalOffset; when not playing the engine stays stopped at the new offset;
when playing it pauses and resumes, so playback restarts at the clamped
target (cue, start time and duration of the new segment as stated) —
except when the clamped target reaches the end of the source, where the
resume's play() computes a non-positive duration and resets globalOffset
and the cue to 0. -/
theorem C8_seek_clamp_pause_resume :
    (∀ (e : AudioEngine) (t now : ℚ), e.state.isPlaying = false →
      (e.seek t now).globalOffset = max 0 (min t e.getDuration) ∧
      (e.seek t now).state.isPlaying = false ∧
      (e.seek t now).accumulatedPosition = max 0 (min t e.getDuration) ∧
      (e.seek t now).state.mode = PlaybackMode.global ∧
      (e.seek t now).state.params = unityParams) ∧
    (∀ (e : AudioEngine) (t now : ℚ), e.state.isPlaying = true →
      e.hasBuffer = true → e.wasmLoaded = true →
      max 0 (min t e.getDuration) < e.getDuration →
      (e.seek t now).globalOffset = max 0 (min t e.getDuration) ∧
      (e.seek t now).state.isPlaying = true ∧
      (e.seek t now).state.cuePoint = max 0 (min t e.getDuration) ∧
      (e.seek t now).state.startTime = now ∧
      (e.seek t now).state.duration =
        e.getDuration - max 0 (min t e.getDuration) ∧
      (e.seek t now).state.mode = PlaybackMode.global ∧
      (e.seek t now).state.params = unityParams) ∧
    (∀ (e : AudioEngine) (t now : ℚ), e.state.isPlaying = true →
      e.hasBuffer = true → e.wasmLoaded = true →
      e.getDuration ≤ max 0 (min t e.getDuration) →
      (e.seek t now).globalOffset = 0 ∧
      (e.seek t now).state.cuePoint = 0) := by
  refine ⟨?_, ?_, ?_⟩
  · intro e t now hnp
    simp [AudioEngine.seek, hnp]
  · intro e t now hp hbuf hwasm hlt
    obtain ⟨pp1, pp2, pp3, pp4, pp5, pp6⟩ := pause_shape e now
    have hPdur : (e.pause now).getDuration = e.getDuration := by
      simp [AudioEngine.getDuration, pp4, pp5]
    rw [seek_playing_eq e t now hp]
    set E : AudioEngine :=
      { e.pause now with
        globalOffset := max 0 (min t (e.pause now).getDuration),
        state := { (e.pause now).state with
          mode := PlaybackMode.global, params := unityParams },
        lastUpdateTime := 0,
        accumulatedPosition := max 0 (min t (e.pause now).getDuration) }
      with hE
    have hE1 : E.state.isPlaying = false := by rw [hE]; simpa using pp1
    have hE2 : E.hasBuffer = true := by rw [hE]; simpa [pp4] using hbuf
    have hE3 : E.wasmLoaded = true := by rw [hE]; simpa [pp6] using hwasm
    have hEdur : E.getDuration = e.getDuration := by
      rw [hE]
      simp only [AudioEngine.getDuration, pp4, pp5]
    have hEoff : E.globalOffset = max 0 (min t e.getDuration) := by
      rw [hE]
      simp [hPdur]
    have hlt2 : E.globalOffset < E.getDuration := by
      rw [hEoff, hEdur]
      exact hlt
    obtain ⟨g1, g2, g3, g4, g5, g6, g7, -⟩ :=
      play_fields E now hE1 hE2 hE3 hlt2
    exact ⟨by rw [g1, hEoff], g2, by rw [g3, hEoff], g4,
      by rw [g5, hEdur, hEoff], g6, g7⟩
  · intro e t now hp hbuf hwasm hge
    obtain ⟨pp1, pp2, pp3, pp4, pp5, pp6⟩ := pause_shape e now
    have hPdur : (e.pause now).getDuration = e.getDuration := by
      simp [AudioEngine.getDuration, pp4, pp5]
    rw [seek_playing_eq e t now hp]
    set E : AudioEngine :=
      { e.pause now with
        globalOffset := max 0 (min t (e.pause now).getDuration),
        state := { (e.pause now).state with
          mode := PlaybackMode.global, params := unityParams },
        lastUpdateTime := 0,
        accumulatedPosition := max 0 (min t (e.pause now).getDuration) }
      with hE
    have hE1 : E.state.isPlaying = false := by rw [hE]; simpa using pp1
    have hE2 : E.hasBuffer = true := by rw [hE]; simpa [pp4] using hbuf
    have hE3 : E.wasmLoaded = true := by rw [hE]; simpa [pp6] using hwasm
    have hEdur : E.getDuration = e.getDuration := by
      rw [hE]
      simp only [AudioEngine.getDuration, pp4, pp5]
    have hEoff : E.globalOffset = max 0 (min t e.getDuration) := by
      rw [hE]
      simp [hPdur]
    have hge2 : E.getDuration ≤ E.globalOffset := by
      rw [hEoff, hEdur]
      exact hge
    obtain ⟨g1, g2, -, -, -⟩ := play_overrun_fields E now hE1 hE2 hE3 hge2
    exact ⟨g1, g2⟩

/-- Witness for C8 amended: a stopped seek lands exactly on the clamp; a
playing seek to 3 s resumes from 3 with a 7 s segment; a playing seek to
the 10 s end resets the offset to 0. -/
theorem C8_seek_clamp_pause_resume_witness :
    engineReady.state.isPlaying = false ∧
    ((engineReady.seek 3 1).globalOffset =
        max 0 (min 3 engineReady.getDuration) ∧
      (engineReady.seek 3 1).state.isPlaying = false ∧
      (engineReady.seek 3 1).accumulatedPosition =
        max 0 (min 3 engineReady.getDuration) ∧
      (engineReady.seek 3 1).state.mode = PlaybackMode.global ∧
      (engineReady.seek 3 1).state.params = unityParams) ∧
    (enginePlaying4.state.isPlaying = true ∧
      max 0 (min 3 enginePlaying4.getDuration) <
        enginePlaying4.getDuration ∧
      ((enginePlaying4.seek 3 1).globalOffset =
          max 0 (min 3 enginePlaying4.getDuration) ∧
        (enginePlaying4.seek 3 1).state.isPlaying = true ∧
        (enginePlaying4.seek 3 1).state.cuePoint =
          max 0 (min 3 enginePlaying4.getDuration) ∧
        (enginePlaying4.seek 3 1).state.startTime = 1 ∧
        (enginePlaying4.seek 3 1).state.duration =
          enginePlaying4.getDuration -
            max 0 (min 3 enginePlaying4.getDuration) ∧
        (enginePlaying4.seek 3 1).state.mode = PlaybackMode.global ∧
        (enginePlaying4.seek 3 1).state.params = unityParams)) ∧
    (enginePlaying4.getDuration ≤
        max 0 (min 12 enginePlaying4.getDuration) ∧
      ((enginePlaying4.seek 12 1).globalOffset = 0 ∧
        (enginePlaying4.seek 12 1).state.cuePoint = 0)) :=
  ⟨by norm_num [engineReady, AudioEngine.init, AudioEngine.setAudioBuffer],
   C8_seek_clamp_pause_resume.1 engineReady 3 1
     (by norm_num [engineReady, AudioEngine.init,
       AudioEngine.setAudioBuffer]),
   ⟨by norm_num [enginePlaying4, engineReady, AudioEngine.init,
       AudioEngine.setAudioBuffer, AudioEngine.seek, AudioEngine.pause,
       AudioEngine.play, AudioEngine.stopPlayback,
       AudioEngine.startPlayback, AudioEngine.getDuration, unityParams],
    by norm_num [enginePlaying4, engineReady, AudioEngine.init,
       AudioEngine.setAudioBuffer, AudioEngine.seek, AudioEngine.pause,
       AudioEngine.play, AudioEngine.stopPlayback,
       AudioEngine.startPlayback, AudioEngine.getDuration, unityParams],
    C8_seek_clamp_pause_resume.2.1 enginePlaying4 3 1
      (by norm_num [enginePlaying4, engineReady, AudioEngine.init,
        AudioEngine.setAudioBuffer, AudioEngine.seek, AudioEngine.pause,
        AudioEngine.play, AudioEngine.stopPlayback,
        AudioEngine.startPlayback, AudioEngine.getDuration, unityParams])
      (by norm_num [enginePlaying4, engineReady, AudioEngine.init,
        AudioEngine.setAudioBuffer, AudioEngine.seek, AudioEngine.pause,
        AudioEngine.play, AudioEngine.stopPlayback,
        AudioEngine.startPlayback, AudioEngine.getDuration, unityParams])
      (by norm_num [enginePlaying4, engineReady, AudioEngine.init,
        AudioEngine.setAudioBuffer, AudioEngine.seek, AudioEngine.pause,
        AudioEngine.play, AudioEngine.stopPlayback,
        AudioEngine.startPlayback, AudioEngine.getDuration, unityParams])
      (by norm_num [enginePlaying4, engineReady, AudioEngine.init,
        AudioEngine.setAudioBuffer, AudioEngine.seek, AudioEngine.pause,
        AudioEngine.play, AudioEngine.stopPlayback,
        AudioEngine.startPlayback, AudioEngine.getDuration, unityParams])⟩,
   ⟨by norm_num [enginePlaying4, engineReady, AudioEngine.init,
       AudioEngine.setAudioBuffer, AudioEngine.seek, AudioEngine.pause,
       AudioEngine.play, AudioEngine.stopPlayback,
       AudioEngine.startPlayback, AudioEngine.getDuration, unityParams],
    C8_seek_clamp_pause_resume.2.2 enginePlaying4 12 1
      (by norm_num [enginePlaying4, engineReady, AudioEngine.init,
        AudioEngine.setAudioBuffer, AudioEngine.seek, AudioEngine.pause,
        AudioEngine.play, AudioEngine.stopPlayback,
        AudioEngine.startPlayback, AudioEngine.getDuration, unityParams])
      (by norm_num [enginePlaying4, engineReady, AudioEngine.init,
        AudioEngine.setAudioBuffer, AudioEngine.seek, AudioEngine.pause,
        AudioEngine.play, AudioEngine.stopPlayback,
        AudioEngine.startPlayback, AudioEngine.getDuration, unityParams])
      (by norm_num [enginePlaying4, engineReady, AudioEngine.init,
        AudioEngine.setAudioBuffer, AudioEngine.seek, AudioEngine.pause,
        AudioEngine.play, AudioEngine.stopPlayback,
        AudioEngine.startPlayback, AudioEngine.getDuration, unityParams])
      (by norm_num [enginePlaying4, engineReady, AudioEngine.init,
        AudioEngine.setAudioBuffer, AudioEngine.seek, AudioEngine.pause,
        AudioEngine.play, AudioEngine.stopPlayback,
        AudioEngine.startPlayback, AudioEngine.getDuration, unityParams])⟩⟩
